import Mathlib

/-!
Replication orchestration of `replication.go`.

A shallow embedding of the replication client (`src/replication.go`): the
report filter, the freshness predicate of `SyncPolicy`, and the orchestration
operations as state-passing functions over a remote array whose calls are
recorded in a trace.

Conventions of the embedding.

* A Go result pair `(ptr, err)` is a pair `Option T × Option Err`: a nil
  pointer is `none`, a nil error is `none`.
* A Go function returning `error` returns an `Outcome`: `ret none` is a nil
  error, `ret (some e)` the error `e`, and `panic` a nil-pointer dereference.
* The remote array is a state `σ` together with an `API σ`, the functions of
  package `apiv11` that the client delegates to. Every call made through the
  client is appended to the trace of the `World`.
* The context argument `ctx` is not represented: cancellation shows up as the
  errors that the remote calls and the poller return.
* `time.Now()` reads the clock of the current remote state (`API.Now`, in
  nanoseconds since the Unix epoch); local computation takes no time.
* Go arithmetic is kept: `time.Unix` wraps in `int64`, `Time.Sub` saturates at
  the largest and smallest `Duration`, and a finite `float64` is a significand
  and an exponent of two, every operation rounding to 53 bits, to nearest,
  ties to even.
-/

set_option linter.dupNamespace false
set_option maxRecDepth 100000

namespace Replication

/-! ## Data model -/

/-- Error values returned by the remote array or by the poller. -/
inductive Err where
  | remote (msg : String)
  | timeout
  | cancelled
deriving DecidableEq, Repr

/-- Modelled from the spec: the struct `apiv11.Policy`, whose declaration is
not part of the source file. It has the fields the source reads or passes
(`Id`, `Enabled`, `JobDelay`, `LastJobState`, `Action`, and the paths and host
of `CreatePolicy`); every default is the Go zero value, so a structure instance
that names some fields leaves the others unset, as a Go composite literal
does. -/
structure Policy where
  Action : String := ""
  Id : String := ""
  Name : String := ""
  Enabled : Bool := false
  TargetPath : String := ""
  SourcePath : String := ""
  TargetHost : String := ""
  JobDelay : Int := 0
  LastJobState : String := ""
deriving DecidableEq, Repr

/-- Modelled from the spec: the struct `apiv11.TargetPolicy` (declaration not in
the source file): identity plus the failover/failback state. -/
structure TargetPolicy where
  Id : String := ""
  Name : String := ""
  FailoverFailbackState : String := ""
deriving DecidableEq, Repr

/-- Modelled from the spec: the struct `apiv11.JobRequest` (declaration not in
the source file): the policy identity and the action. -/
structure JobRequest where
  Id : String := ""
  Action : String := ""
deriving DecidableEq, Repr

/-- Modelled from the spec: the struct `apiv11.Report` (declaration not in the
source file): the associated policy, the end time in seconds since the Unix
epoch and the job state. -/
structure Report where
  Policy : Policy := {}
  Id : String := ""
  EndTime : Int := 0
  State : String := ""
deriving DecidableEq, Repr

/-- Modelled from the spec: the struct `apiv11.Reports` (declaration not in the
source file), the ordered sequence of reports of one fetch. -/
structure Reports where
  Reports : List Report := []
deriving DecidableEq, Repr

/-! ## Constants -/

/-- The constant `defaultPoll`, 5 seconds, in nanoseconds. -/
def defaultPoll : Int := 5 * 1000000000

/-- The constant `defaultTimeout`, 10 minutes, in nanoseconds. -/
def defaultTimeout : Int := 10 * (60 * 1000000000)

/-- The constant `RESYNC_PREP`. -/
def RESYNC_PREP : String := "resync_prep"
/-- The constant `ALLOW_WRITE`. -/
def ALLOW_WRITE : String := "allow_write"
/-- The constant `ALLOW_WRITE_REVERT`. -/
def ALLOW_WRITE_REVERT : String := "allow_write_revert"
/-- The constant `FINISHED`. -/
def FINISHED : String := "finished"
/-- The constant `WRITES_DISABLED`. -/
def WRITES_DISABLED : String := "writes_disabled"
/-- The constant `WRITES_ENABLED`. -/
def WRITES_ENABLED : String := "writes_enabled"
/-- The constant `RESYNC_POLICY_CREATED`. -/
def RESYNC_POLICY_CREATED : String := "resync_policy_created"

/-- Modelled from the spec: the constant `apiv11.RESYNC_PREP`, declared in the
package `apiv11` outside the source file; the spec names the action
`resync_prep`. -/
def apiv11.RESYNC_PREP : String := "resync_prep"
/-- Modelled from the spec: the constant `apiv11.ALLOW_WRITE`, declared in the
package `apiv11` outside the source file; the spec names the action
`allow_write`. -/
def apiv11.ALLOW_WRITE : String := "allow_write"
/-- Modelled from the spec: the constant `apiv11.ALLOW_WRITE_REVERT`, declared
in the package `apiv11` outside the source file; the spec names the action
`allow_write_revert`. -/
def apiv11.ALLOW_WRITE_REVERT : String := "allow_write_revert"
/-- Modelled from the spec: the constant `apiv11.FINISHED`, declared in the
package `apiv11` outside the source file; the spec names the state
`finished`. -/
def apiv11.FINISHED : String := "finished"

/-! ## The report filter -/

/-- The function `FilterReports`: start from the empty slice and append, in the
order of the range loop, every value the predicate accepts. -/
def FilterReports (values : List Report) (filterFunc : Report → Bool) : List Report :=
  values.foldl (fun filtered v => if filterFunc v then filtered ++ [v] else filtered) []

/-! ## Go arithmetic: `int64`, `time` and `float64` -/

/-- Two's-complement wrap-around of `int64` arithmetic. -/
def wrapInt64 (x : Int) : Int :=
  (x + 9223372036854775808) % 18446744073709551616 - 9223372036854775808

/-- The constant `time.Second`, in nanoseconds. -/
def Second : Int := 1000000000

/-- The largest `time.Duration`, `1<<63 - 1` nanoseconds. -/
def maxDuration : Int := 9223372036854775807

/-- The smallest `time.Duration`, `-1 << 63` nanoseconds. -/
def minDuration : Int := -9223372036854775808

/-- The seconds from January 1 of year 1 to the Unix epoch, the offset of the
seconds field of a `time.Time`. -/
def unixToInternal : Int := 62135596800

/-- A `time.Time` as its wall-clock instant: the `int64` seconds since January 1
of year 1 and the nanoseconds within the second. -/
structure Time where
  sec : Int
  nsec : Int
deriving DecidableEq, Repr

/-- The call `time.Unix(sec, 0)`: the offset is added in `int64`. -/
def time.Unix (sec : Int) : Time :=
  { sec := wrapInt64 (sec + unixToInternal), nsec := 0 }

/-- The value of `time.Now()` when the clock reads `now` nanoseconds since the
Unix epoch. -/
def time.Now (now : Int) : Time :=
  { sec := wrapInt64 (now / Second + unixToInternal), nsec := now % Second }

/-- The method `Time.Sub` for an argument without monotonic reading, as
`time.Unix` returns it: the difference of the two wall-clock instants in
nanoseconds, and the smallest or largest `Duration` when that difference does
not fit (the documented result of the overflow check of `Sub`). -/
def Time.Sub (t u : Time) : Int :=
  let d := (t.sec - u.sec) * Second + (t.nsec - u.nsec)
  if d < minDuration then minDuration else if maxDuration < d then maxDuration else d

/-- A finite `float64`: the value is `m * 2 ^ e`. The values that occur here
are zero or lie between `1e-9` and `2 ^ 64` in magnitude, inside the normal
range, so that subnormal numbers and infinities are not represented. -/
structure F64 where
  m : Int
  e : Int
deriving DecidableEq, Repr

/-- The rational number a `float64` stands for. -/
def F64.toRat (f : F64) : ℚ := (f.m : ℚ) * (2 : ℚ) ^ f.e

/-- The position of the leading bit of `n`, by at most `fuel` halvings. -/
def log2Fuel : Nat → Nat → Nat
  | 0, _ => 0
  | fuel + 1, n => if n < 2 then 0 else log2Fuel fuel (n / 2) + 1

/-- The position of the leading bit of `n`: `2 ^ bitLog2 n ≤ n < 2 ^ (bitLog2 n + 1)`
for positive `n`. -/
def bitLog2 (n : Nat) : Nat := log2Fuel n n

/-- The fraction `n / b` multiplied by `2 ^ k`, as numerator and denominator. -/
def scalePow2 (n b : Nat) (k : Int) : Nat × Nat :=
  if 0 ≤ k then (n * 2 ^ k.toNat, b) else (n, b * 2 ^ (-k).toNat)

/-- The binary exponent of the positive fraction `n / b`: the `e` with
`2 ^ e ≤ n / b < 2 ^ (e + 1)`. -/
def floorLog2 (n b : Nat) : Int :=
  let e0 : Int := (bitLog2 n : Int) - (bitLog2 b : Int)
  if (scalePow2 n b (-e0)).2 ≤ (scalePow2 n b (-e0)).1 then e0 else e0 - 1

/-- The integer nearest to `p / q`, the even one of two equally near. -/
def roundNearestEven (p q : Nat) : Nat :=
  if 2 * (p % q) < q then p / q
  else if q < 2 * (p % q) then p / q + 1
  else if (p / q) % 2 = 0 then p / q
  else p / q + 1

/-- The `float64` nearest to the fraction `num / den`: a significand of 53
bits, rounded to nearest, ties to even. -/
def F64.round (num : Int) (den : Nat) : F64 :=
  if num = 0 then { m := 0, e := 0 }
  else
    let e := floorLog2 num.natAbs den
    let pq := scalePow2 num.natAbs den (52 - e)
    let m : Int := roundNearestEven pq.1 pq.2
    { m := if 0 < num then m else -m, e := e - 52 }

/-- The conversion `float64(n)` of an integer. -/
def F64.ofInt (n : Int) : F64 := F64.round n 1

/-- The quotient `a / c` of a `float64` by a positive integer constant that is
itself a `float64` (here `1e9` and `2`). -/
def F64.divNat (a : F64) (c : Nat) : F64 :=
  if 0 ≤ a.e then F64.round (a.m * 2 ^ a.e.toNat) c
  else F64.round a.m (c * 2 ^ (-a.e).toNat)

/-- The sum `a + b` of two `float64`. -/
def F64.add (a b : F64) : F64 :=
  let e := min a.e b.e
  let s := a.m * 2 ^ (a.e - e).toNat + b.m * 2 ^ (b.e - e).toNat
  if 0 ≤ e then F64.round (s * 2 ^ e.toNat) 1 else F64.round s (2 ^ (-e).toNat)

/-- The comparison `a < b` of two `float64`. -/
def F64.lt (a b : F64) : Bool :=
  let e := min a.e b.e
  decide (a.m * 2 ^ (a.e - e).toNat < b.m * 2 ^ (b.e - e).toNat)

/-- The method `Duration.Seconds`: `float64(sec) + float64(nsec)/1e9` with the
truncated quotient `sec` and remainder `nsec` of the nanoseconds by
`Second`. -/
def Duration.Seconds (d : Int) : F64 :=
  F64.add (F64.ofInt (d.tdiv Second)) (F64.divNat (F64.ofInt (d.tmod Second)) 1000000000)

/-- The expression `time.Now().Sub(endTime).Seconds()` with
`endTime := time.Unix(r.EndTime, 0)`, where the clock reads `now` nanoseconds
since the Unix epoch. -/
def diffSeconds (now : Int) (r : Report) : F64 :=
  let endTime := time.Unix r.EndTime
  Duration.Seconds (Time.Sub (time.Now now) endTime)

/-- The closure `reportFilter` of `SyncPolicy`, with the captured `rpo` and the
clock reading `now` made explicit. -/
def reportFilter (rpo : Int) (now : Int) (r : Report) : Bool :=
  let isSync := r.Policy.Action == "sync"
  let diff := diffSeconds now r
  let isRecent := F64.lt diff (F64.divNat (F64.ofInt rpo) 2)
  let isFinished := r.State == apiv11.FINISHED
  isSync && isRecent && isFinished

/-! ## The remote array and the trace of calls -/

/-- The functions of package `apiv11` (and the clock) that the client calls,
as functions of the state `σ` of the remote array. They are not part of the
source file and are taken as parameters: each returns the Go result and the
next state. -/
structure API (σ : Type) where
  GetPolicyByName : String → σ → (Option Policy × Option Err) × σ
  GetTargetPolicyByName : String → σ → (Option TargetPolicy × Option Err) × σ
  UpdatePolicy : Policy → σ → Option Err × σ
  DeleteTargetPolicy : String → σ → Option Err × σ
  StartSyncIQJob : JobRequest → σ → (Option JobRequest × Option Err) × σ
  GetReportsByPolicyName : String → Int → σ → (Option Reports × Option Err) × σ
  Now : σ → Int

/-- A remote call, with its arguments. -/
inductive Call where
  | GetPolicyByName (id : String)
  | GetTargetPolicyByName (id : String)
  | UpdatePolicy (p : Policy)
  | DeleteTargetPolicy (id : String)
  | StartSyncIQJob (job : JobRequest)
  | GetReportsByPolicyName (policyName : String) (reportsForPolicy : Int)
deriving DecidableEq, Repr

/-- The state of the remote array and the calls made so far, oldest first. -/
structure World (σ : Type) where
  remote : σ
  trace : List Call
deriving DecidableEq

/-- What a Go function of result type `error` does: return an error value
(`none` is nil) or dereference a nil pointer. -/
inductive Outcome where
  | ret (err : Option Err)
  | panic
deriving DecidableEq, Repr

/-- What a probe of result type `(bool, error)` does. -/
inductive ProbeResult where
  | ret (done : Bool) (err : Option Err)
  | panic
deriving DecidableEq, Repr

/-- A probe handed to the poller. -/
abbrev Probe (σ : Type) := World σ → ProbeResult × World σ

/-- The function `utils.PollImmediateWithContext`, which is not part of the
source file and is taken as a parameter: from the interval, the timeout (both
in nanoseconds) and the probe it computes the error it returns. -/
abbrev Poller (σ : Type) := Int → Int → Probe σ → World σ → Outcome × World σ

/-- Number of `UpdatePolicy` calls in a trace. -/
def updateCalls (t : List Call) : Nat :=
  (t.filter (fun c => match c with | Call.UpdatePolicy _ => true | _ => false)).length

/-- Number of `StartSyncIQJob` calls in a trace. -/
def jobCalls (t : List Call) : Nat :=
  (t.filter (fun c => match c with | Call.StartSyncIQJob _ => true | _ => false)).length

/-! ## Accessors -/

section Client
variable {σ : Type}

/-- The call `apiv11.GetPolicyByName(ctx, c.API, id)`, recorded. -/
def apiGetPolicyByName (api : API σ) (id : String) (w : World σ) :
    (Option Policy × Option Err) × World σ :=
  ((api.GetPolicyByName id w.remote).1,
    { remote := (api.GetPolicyByName id w.remote).2
      trace := w.trace ++ [Call.GetPolicyByName id] })

/-- The call `apiv11.GetTargetPolicyByName(ctx, c.API, id)`, recorded. -/
def apiGetTargetPolicyByName (api : API σ) (id : String) (w : World σ) :
    (Option TargetPolicy × Option Err) × World σ :=
  ((api.GetTargetPolicyByName id w.remote).1,
    { remote := (api.GetTargetPolicyByName id w.remote).2
      trace := w.trace ++ [Call.GetTargetPolicyByName id] })

/-- The call `apiv11.UpdatePolicy(ctx, c.API, p)`, recorded. -/
def apiUpdatePolicy (api : API σ) (p : Policy) (w : World σ) : Option Err × World σ :=
  ((api.UpdatePolicy p w.remote).1,
    { remote := (api.UpdatePolicy p w.remote).2
      trace := w.trace ++ [Call.UpdatePolicy p] })

/-- The call `apiv11.DeleteTargetPolicy(ctx, c.API, id)`, recorded. -/
def apiDeleteTargetPolicy (api : API σ) (id : String) (w : World σ) : Option Err × World σ :=
  ((api.DeleteTargetPolicy id w.remote).1,
    { remote := (api.DeleteTargetPolicy id w.remote).2
      trace := w.trace ++ [Call.DeleteTargetPolicy id] })

/-- The call `apiv11.StartSyncIQJob(ctx, c.API, job)`, recorded. -/
def apiStartSyncIQJob (api : API σ) (job : JobRequest) (w : World σ) :
    (Option JobRequest × Option Err) × World σ :=
  ((api.StartSyncIQJob job w.remote).1,
    { remote := (api.StartSyncIQJob job w.remote).2
      trace := w.trace ++ [Call.StartSyncIQJob job] })

/-- The call `apiv11.GetReportsByPolicyName(ctx, c.API, policyName, n)`,
recorded. -/
def apiGetReportsByPolicyName (api : API σ) (policyName : String) (reportsForPolicy : Int)
    (w : World σ) : (Option Reports × Option Err) × World σ :=
  ((api.GetReportsByPolicyName policyName reportsForPolicy w.remote).1,
    { remote := (api.GetReportsByPolicyName policyName reportsForPolicy w.remote).2
      trace := w.trace ++ [Call.GetReportsByPolicyName policyName reportsForPolicy] })

/-- The method `GetPolicyByName`. -/
def GetPolicyByName (api : API σ) (id : String) (w : World σ) :
    (Option Policy × Option Err) × World σ :=
  apiGetPolicyByName api id w

/-- The method `GetTargetPolicyByName`. -/
def GetTargetPolicyByName (api : API σ) (id : String) (w : World σ) :
    (Option TargetPolicy × Option Err) × World σ :=
  apiGetTargetPolicyByName api id w

/-- The method `DeleteTargetPolicy`. -/
def DeleteTargetPolicy (api : API σ) (id : String) (w : World σ) : Outcome × World σ :=
  (Outcome.ret (apiDeleteTargetPolicy api id w).1, (apiDeleteTargetPolicy api id w).2)

/-- The method `StartSyncIQJob`. -/
def StartSyncIQJob (api : API σ) (job : JobRequest) (w : World σ) :
    (Option JobRequest × Option Err) × World σ :=
  apiStartSyncIQJob api job w

/-- The method `GetReportsByPolicyName`. -/
def GetReportsByPolicyName (api : API σ) (policyName : String) (reportsForPolicy : Int)
    (w : World σ) : (Option Reports × Option Err) × World σ :=
  apiGetReportsByPolicyName api policyName reportsForPolicy w

/-- The method `RunActionForPolicy`: build the job request and submit it. -/
def RunActionForPolicy (api : API σ) (policyName : String) (action : String) (w : World σ) :
    (Option JobRequest × Option Err) × World σ :=
  let job : JobRequest := { Id := policyName, Action := action }
  apiStartSyncIQJob api job w

/-! ## Operations -/

/-- The method `BreakAssociation`. -/
def BreakAssociation (api : API σ) (targetPolicyName : String) (w : World σ) :
    Outcome × World σ :=
  match apiGetTargetPolicyByName api targetPolicyName w with
  | ((_, some err), w1) => (Outcome.ret (some err), w1)
  | ((none, none), w1) => (Outcome.panic, w1)
  | ((some tp, none), w1) => DeleteTargetPolicy api tp.Id w1

/-- The method `SetPolicyEnabledField`. -/
def SetPolicyEnabledField (api : API σ) (name : String) (value : Bool) (w : World σ) :
    Outcome × World σ :=
  match GetPolicyByName api name w with
  | ((_, some err), w1) => (Outcome.ret (some err), w1)
  | ((none, none), w1) => (Outcome.ret none, w1)
  | ((some pp, none), w1) =>
    if pp.Enabled = value then
      (Outcome.ret none, w1)
    else
      let p : Policy := { Id := pp.Id, Enabled := value }
      (Outcome.ret (apiUpdatePolicy api p w1).1, (apiUpdatePolicy api p w1).2)

/-- The method `EnablePolicy`. -/
def EnablePolicy (api : API σ) (name : String) (w : World σ) : Outcome × World σ :=
  SetPolicyEnabledField api name true w

/-- The method `DisablePolicy`. -/
def DisablePolicy (api : API σ) (name : String) (w : World σ) : Outcome × World σ :=
  SetPolicyEnabledField api name false w

/-- The probe of `WaitForTargetPolicyCondition`: read the target policy and
compare its state with the condition. -/
def targetPolicyProbe (api : API σ) (policyName : String) (condition : String) : Probe σ :=
  fun w =>
    match GetTargetPolicyByName api policyName w with
    | ((_, some err), w1) => (ProbeResult.ret false (some err), w1)
    | ((none, none), w1) => (ProbeResult.panic, w1)
    | ((some tp, none), w1) =>
      if tp.FailoverFailbackState ≠ condition then
        (ProbeResult.ret false none, w1)
      else
        (ProbeResult.ret true none, w1)

/-- The method `WaitForTargetPolicyCondition`. -/
def WaitForTargetPolicyCondition (api : API σ) (poll : Poller σ) (policyName : String)
    (condition : String) (w : World σ) : Outcome × World σ :=
  match poll defaultPoll defaultTimeout (targetPolicyProbe api policyName condition) w with
  | (Outcome.panic, w1) => (Outcome.panic, w1)
  | (Outcome.ret (some pollErr), w1) => (Outcome.ret (some pollErr), w1)
  | (Outcome.ret none, w1) => (Outcome.ret none, w1)

/-- The method `AllowWrites`. -/
def AllowWrites (api : API σ) (poll : Poller σ) (policyName : String) (w : World σ) :
    Outcome × World σ :=
  match GetTargetPolicyByName api policyName w with
  | ((_, some err), w1) => (Outcome.ret (some err), w1)
  | ((none, none), w1) => (Outcome.panic, w1)
  | ((some targetPolicy, none), w1) =>
    if targetPolicy.FailoverFailbackState = WRITES_ENABLED then
      (Outcome.ret none, w1)
    else
      match RunActionForPolicy api policyName apiv11.ALLOW_WRITE w1 with
      | ((_, some err), w2) => (Outcome.ret (some err), w2)
      | ((_, none), w2) =>
        match WaitForTargetPolicyCondition api poll policyName WRITES_ENABLED w2 with
        | (Outcome.panic, w3) => (Outcome.panic, w3)
        | (Outcome.ret (some err), w3) => (Outcome.ret (some err), w3)
        | (Outcome.ret none, w3) => (Outcome.ret none, w3)

/-- The method `DisallowWrites`. -/
def DisallowWrites (api : API σ) (poll : Poller σ) (policyName : String) (w : World σ) :
    Outcome × World σ :=
  match GetTargetPolicyByName api policyName w with
  | ((_, some err), w1) => (Outcome.ret (some err), w1)
  | ((none, none), w1) => (Outcome.panic, w1)
  | ((some targetPolicy, none), w1) =>
    if targetPolicy.FailoverFailbackState = WRITES_DISABLED then
      (Outcome.ret none, w1)
    else
      match RunActionForPolicy api policyName apiv11.ALLOW_WRITE_REVERT w1 with
      | ((_, some err), w2) => (Outcome.ret (some err), w2)
      | ((_, none), w2) =>
        match WaitForTargetPolicyCondition api poll policyName WRITES_DISABLED w2 with
        | (Outcome.panic, w3) => (Outcome.panic, w3)
        | (Outcome.ret (some err), w3) => (Outcome.ret (some err), w3)
        | (Outcome.ret none, w3) => (Outcome.ret none, w3)

/-- The method `ResyncPrep`. -/
def ResyncPrep (api : API σ) (poll : Poller σ) (policyName : String) (w : World σ) :
    Outcome × World σ :=
  match GetTargetPolicyByName api policyName w with
  | ((_, some err), w1) => (Outcome.ret (some err), w1)
  | ((none, none), w1) => (Outcome.panic, w1)
  | ((some targetPolicy, none), w1) =>
    if targetPolicy.FailoverFailbackState = RESYNC_POLICY_CREATED then
      (Outcome.ret none, w1)
    else
      match RunActionForPolicy api policyName apiv11.RESYNC_PREP w1 with
      | ((_, some err), w2) => (Outcome.ret (some err), w2)
      | ((_, none), w2) =>
        match WaitForTargetPolicyCondition api poll policyName RESYNC_POLICY_CREATED w2 with
        | (Outcome.panic, w3) => (Outcome.panic, w3)
        | (Outcome.ret (some err), w3) => (Outcome.ret (some err), w3)
        | (Outcome.ret none, w3) => (Outcome.ret none, w3)

/-- The probe that `SyncPolicy` hands to the poller: fetch the last 5 reports
again and filter them with the freshness predicate of the captured `rpo`. -/
def syncProbe (api : API σ) (policyName : String) (rpo : Int) : Probe σ :=
  fun w =>
    match GetReportsByPolicyName api policyName 5 w with
    | ((_, some err), w1) => (ProbeResult.ret false (some err), w1)
    | ((none, none), w1) => (ProbeResult.panic, w1)
    | ((some reports, none), w1) =>
      let filtered := FilterReports reports.Reports (reportFilter rpo (api.Now w1.remote))
      if filtered.length = 0 then
        (ProbeResult.ret false none, w1)
      else
        (ProbeResult.ret true none, w1)

/-- The method `SyncPolicy`. -/
def SyncPolicy (api : API σ) (poll : Poller σ) (policyName : String) (w : World σ) :
    Outcome × World σ :=
  match GetPolicyByName api policyName w with
  | ((_, some err), w1) => (Outcome.ret (some err), w1)
  | ((none, none), w1) => (Outcome.panic, w1)
  | ((some p, none), w1) =>
    let rpo := p.JobDelay
    match GetReportsByPolicyName api policyName 5 w1 with
    | ((_, some err), w2) => (Outcome.ret (some err), w2)
    | ((none, none), w2) => (Outcome.panic, w2)
    | ((some reports, none), w2) =>
      let filtered := FilterReports reports.Reports (reportFilter rpo (api.Now w2.remote))
      if filtered.length = 0 then
        let jobReq : JobRequest := { Id := policyName }
        match StartSyncIQJob api jobReq w2 with
        | ((_, some err), w3) => (Outcome.ret (some err), w3)
        | ((_, none), w3) =>
          match poll defaultPoll defaultTimeout (syncProbe api policyName rpo) w3 with
          | (Outcome.panic, w4) => (Outcome.panic, w4)
          | (Outcome.ret (some pollErr), w4) => (Outcome.ret (some pollErr), w4)
          | (Outcome.ret none, w4) => (Outcome.ret none, w4)
      else
        (Outcome.ret none, w2)

end Client

/-! ## Intermediate worlds and the common shape of the target-policy operations -/

section Shape
variable {σ : Type}

/-- The world after the target-policy read with which `AllowWrites`,
`DisallowWrites`, `ResyncPrep` and `BreakAssociation` begin. -/
def afterTargetRead (api : API σ) (policyName : String) (w : World σ) : World σ :=
  (GetTargetPolicyByName api policyName w).2

/-- The world after that read and the dispatch of the action. -/
def afterDispatch (api : API σ) (policyName : String) (action : String) (w : World σ) :
    World σ :=
  (RunActionForPolicy api policyName action (afterTargetRead api policyName w)).2

/-- The world after the policy read with which `SyncPolicy` begins. -/
def afterPolicyRead (api : API σ) (policyName : String) (w : World σ) : World σ :=
  (GetPolicyByName api policyName w).2

/-- The world after that read and the fetch of the last 5 reports. -/
def afterFetch (api : API σ) (policyName : String) (w : World σ) : World σ :=
  (GetReportsByPolicyName api policyName 5 (afterPolicyRead api policyName w)).2

/-- The world after the read, the fetch and the submission of the sync job. -/
def afterSyncDispatch (api : API σ) (policyName : String) (w : World σ) : World σ :=
  (StartSyncIQJob api { Id := policyName } (afterFetch api policyName w)).2

/-- The body that `AllowWrites`, `DisallowWrites` and `ResyncPrep` share, with
the terminal state and the action as arguments. -/
def reconcileTarget (api : API σ) (poll : Poller σ) (policyName : String) (terminal : String)
    (action : String) (w : World σ) : Outcome × World σ :=
  match GetTargetPolicyByName api policyName w with
  | ((_, some err), w1) => (Outcome.ret (some err), w1)
  | ((none, none), w1) => (Outcome.panic, w1)
  | ((some targetPolicy, none), w1) =>
    if targetPolicy.FailoverFailbackState = terminal then
      (Outcome.ret none, w1)
    else
      match RunActionForPolicy api policyName action w1 with
      | ((_, some err), w2) => (Outcome.ret (some err), w2)
      | ((_, none), w2) =>
        match WaitForTargetPolicyCondition api poll policyName terminal w2 with
        | (Outcome.panic, w3) => (Outcome.panic, w3)
        | (Outcome.ret (some err), w3) => (Outcome.ret (some err), w3)
        | (Outcome.ret none, w3) => (Outcome.ret none, w3)

end Shape

/-! ## A poller and a small remote array, for running the operations -/

/-- The loop of the poller below: at most `n` attempts. -/
def pollLoop {σ : Type} (probe : Probe σ) : Nat → World σ → Outcome × World σ
  | 0, w => (Outcome.ret (some Err.timeout), w)
  | n + 1, w =>
    match probe w with
    | (ProbeResult.panic, w1) => (Outcome.panic, w1)
    | (ProbeResult.ret _ (some err), w1) => (Outcome.ret (some err), w1)
    | (ProbeResult.ret true none, w1) => (Outcome.ret none, w1)
    | (ProbeResult.ret false none, w1) => pollLoop probe n w1

/-- Modelled from the spec: the function `utils.PollImmediateWithContext`,
which is not part of the source file. The probe is invoked immediately; an
error aborts and is propagated; a met condition succeeds; otherwise the probe
is tried again after the interval, and once the timeout has elapsed (after
`timeout / interval + 1` attempts) the poller fails with a timeout error.
Cancellation of the context is not represented. -/
def PollImmediateWithContext {σ : Type} : Poller σ :=
  fun interval timeout probe w => pollLoop probe ((timeout / interval).toNat + 1) w

/-- A small remote array: the stored policies, target policies and reports,
the clock, and the errors with which it rejects updates, target-policy reads,
report fetches and job requests, if it does. -/
structure Store where
  policies : List Policy := []
  targetPolicies : List TargetPolicy := []
  reports : List Report := []
  clock : Int := 0
  updateErr : Option Err := none
  targetErr : Option Err := none
  reportErr : Option Err := none
  jobErr : Option Err := none
deriving DecidableEq, Repr

/-- The policy stored under an identity. -/
def Store.lookup (s : Store) (id : String) : Option Policy :=
  s.policies.find? (fun q => q.Id == id)

/-- Store the enabled flag of the payload in the policy of the same identity
and leave every other field untouched. -/
def Store.update (s : Store) (p : Policy) : Store :=
  { s with
    policies :=
      s.policies.map (fun q => if q.Id = p.Id then { q with Enabled := p.Enabled } else q) }

/-- The state a target policy reaches through an action, and a fresh finished
sync report for a request without action. -/
def Store.runJob (s : Store) (job : JobRequest) : Store :=
  if job.Action = "" then
    { s with reports := s.reports ++
        [{ Policy := { Action := "sync", Id := job.Id }
           EndTime := s.clock / 1000000000, State := "finished" }] }
  else
    { s with targetPolicies := s.targetPolicies.map (fun t =>
        if t.Id = job.Id then
          { t with FailoverFailbackState :=
              if job.Action = "allow_write" then WRITES_ENABLED
              else if job.Action = "allow_write_revert" then WRITES_DISABLED
              else if job.Action = "resync_prep" then RESYNC_POLICY_CREATED
              else t.FailoverFailbackState }
        else t) }

/-- The accessors of a `Store`; `policyErr` is the error with which policy
reads fail, if they do. A policy that is not stored is reported as absent (a
nil policy and a nil error). -/
def storeAPI (policyErr : Option Err) : API Store where
  GetPolicyByName id s :=
    match policyErr with
    | some e => ((none, some e), s)
    | none => ((s.lookup id, none), s)
  GetTargetPolicyByName id s :=
    match s.targetErr with
    | some e => ((none, some e), s)
    | none => ((s.targetPolicies.find? (fun t => t.Id == id), none), s)
  UpdatePolicy p s :=
    match s.updateErr with
    | some e => (some e, s)
    | none => (none, s.update p)
  DeleteTargetPolicy id s :=
    (none, { s with targetPolicies := s.targetPolicies.filter (fun t => t.Id != id) })
  StartSyncIQJob job s :=
    match s.jobErr with
    | some e => ((none, some e), s)
    | none => ((some job, none), s.runJob job)
  GetReportsByPolicyName _ n s :=
    match s.reportErr with
    | some e => ((none, some e), s)
    | none => ((some { Reports := s.reports.take n.toNat }, none), s)
  Now s := s.clock

/-- A remote array with one policy of interval 40 seconds, its target policy
in a transitional state, and one sync report that finished 10 seconds before
the reading of the clock. -/
def demoStore : Store :=
  { policies := [{ Id := "p", Name := "p", JobDelay := 40 }]
    targetPolicies := [{ Id := "p", FailoverFailbackState := "enabling_writes" }]
    reports := [{ Policy := { Action := "sync", Id := "p" }, EndTime := 990, State := "finished" }]
    clock := 1000000000000 }

/-- The same remote array with the target policy in the given state. -/
def reachedStore (state : String) : Store :=
  { demoStore with targetPolicies := [{ Id := "p", FailoverFailbackState := state }] }

/-- The same remote array whose only report finished 1000 seconds before the
reading of the clock. -/
def staleStore : Store :=
  { demoStore with
    reports := [{ Policy := { Action := "sync", Id := "p" }, EndTime := 0, State := "finished" }] }

/-- A remote array whose only report, a finished sync, ended
16777216.999999999 seconds before the reading of the clock, with a policy of
interval 33554434 seconds. -/
def roundingStore : Store :=
  { policies := [{ Id := "p", Name := "p", JobDelay := 33554434 }]
    reports := [{ Policy := { Action := "sync", Id := "p" }, EndTime := 1683222784
                  State := "finished" }]
    clock := 1700000000999999999 }

/-- A remote array whose only report, a finished sync, ended 11700000000
seconds before the reading of the clock, with a policy of interval 20000000000
seconds. -/
def saturatingStore : Store :=
  { policies := [{ Id := "p", Name := "p", JobDelay := 20000000000 }]
    reports := [{ Policy := { Action := "sync", Id := "p" }, EndTime := -10000000000
                  State := "finished" }]
    clock := 1700000000000000000 }

/-- What the claim on the idempotent setter asks of the remote array: a read
succeeds with the stored policy and leaves the stored policies as they are, and
a successful update of the enabled flag of a stored policy stores that flag. -/
structure StoresEnabledFlag {σ : Type} (api : API σ) (stored : σ → String → Option Policy) :
    Prop where
  read_result : ∀ name s, (api.GetPolicyByName name s).1 = (stored s name, none)
  read_stored : ∀ name s, stored (api.GetPolicyByName name s).2 = stored s
  update_stored : ∀ name s pp v, stored s name = some pp →
    (api.UpdatePolicy { Id := pp.Id, Enabled := v } s).1 = none →
    ∃ pp1, stored (api.UpdatePolicy { Id := pp.Id, Enabled := v } s).2 name = some pp1 ∧
      pp1.Enabled = v

/-! ## The report filter: theorems -/

theorem foldl_filter_aux (f : Report → Bool) (values acc : List Report) :
    values.foldl (fun filtered v => if f v then filtered ++ [v] else filtered) acc
      = acc ++ values.filter f := by
  induction values generalizing acc with
  | nil => simp
  | cons v vs ih =>
    simp only [List.foldl_cons, ih]
    by_cases h : f v = true
    · simp [h, List.filter_cons]
    · simp [h, List.filter_cons]

theorem FilterReports_eq (values : List Report) (f : Report → Bool) :
    FilterReports values f = values.filter f := by
  simp [FilterReports, foldl_filter_aux]

/-- C1: `FilterReports` is the order-preserving filter: it returns exactly the
reports that satisfy the predicate, each as often as in the input, as a
subsequence of the input; the empty input and an input without a match give
the empty list. -/
theorem FilterReports_spec (values : List Report) (filterFunc : Report → Bool) :
    FilterReports values filterFunc = values.filter filterFunc ∧
    (∀ r, r ∈ FilterReports values filterFunc ↔ r ∈ values ∧ filterFunc r = true) ∧
    (∀ r, (FilterReports values filterFunc).count r
        = if filterFunc r = true then values.count r else 0) ∧
    (FilterReports values filterFunc).Sublist values ∧
    FilterReports [] filterFunc = [] ∧
    ((∀ r ∈ values, filterFunc r = false) → FilterReports values filterFunc = []) := by
  refine ⟨FilterReports_eq _ _, ?_, ?_, ?_, ?_, ?_⟩
  · intro r
    simp [FilterReports_eq, List.mem_filter]
  · intro r
    rw [FilterReports_eq]
    by_cases h : filterFunc r = true
    · rw [if_pos h, List.count_filter h]
    · rw [if_neg h, List.count_eq_zero]
      simp only [List.mem_filter, not_and]
      intro _
      exact h
  · rw [FilterReports_eq]
    exact List.filter_sublist values
  · rfl
  · intro h
    rw [FilterReports_eq, List.filter_eq_nil_iff]
    intro r hr
    simp [h r hr]

theorem FilterReports_spec_witness :
    (∀ r ∈ [({ Id := "a" } : Report)], (fun _ : Report => false) r = false) ∧
    FilterReports [({ Id := "a" } : Report)] (fun _ => false) = [] :=
  ⟨by simp, (FilterReports_spec [{ Id := "a" }] (fun _ => false)).2.2.2.2.2 (by simp)⟩

/-! ## Go arithmetic: theorems -/

theorem log2Fuel_spec : ∀ (fuel n : Nat), n ≤ fuel → 0 < n →
    2 ^ log2Fuel fuel n ≤ n ∧ n < 2 ^ (log2Fuel fuel n + 1) := by
  intro fuel
  induction fuel with
  | zero => intro n h1 h2; omega
  | succ fuel ih =>
    intro n h1 h2
    unfold log2Fuel
    by_cases hn : n < 2
    · rw [if_pos hn]
      have : n = 1 := by omega
      subst this
      simp
    · rw [if_neg hn]
      have h3 : n / 2 ≤ fuel := by omega
      have h4 : 0 < n / 2 := by omega
      obtain ⟨ih1, ih2⟩ := ih (n / 2) h3 h4
      rw [pow_succ, pow_succ] at *
      constructor <;> omega

theorem bitLog2_spec (n : Nat) (h : 0 < n) :
    2 ^ bitLog2 n ≤ n ∧ n < 2 ^ (bitLog2 n + 1) :=
  log2Fuel_spec n n (le_refl n) h

theorem scalePow2_den_pos (n b : Nat) (k : Int) (hb : 0 < b) : 0 < (scalePow2 n b k).2 := by
  unfold scalePow2
  split
  · exact hb
  · exact Nat.mul_pos hb (pow_pos (by norm_num) _)

theorem scalePow2_ratio (n b : Nat) (k : Int) (hb : 0 < b) :
    ((scalePow2 n b k).1 : ℚ) / ((scalePow2 n b k).2 : ℚ) = (n : ℚ) / (b : ℚ) * (2 : ℚ) ^ k := by
  have hb0 : (b : ℚ) ≠ 0 := by exact_mod_cast hb.ne'
  unfold scalePow2
  split
  · rename_i hk
    have : (2 : ℚ) ^ k = (2 : ℚ) ^ k.toNat := by
      conv_lhs => rw [← Int.toNat_of_nonneg hk]
      rw [zpow_natCast]
    rw [this]
    push_cast
    ring
  · rename_i hk
    have hk2 : 0 ≤ -k := by omega
    have : (2 : ℚ) ^ k = ((2 : ℚ) ^ (-k).toNat)⁻¹ := by
      rw [← zpow_natCast, Int.toNat_of_nonneg hk2, zpow_neg, inv_inv]
    rw [this]
    push_cast
    field_simp

theorem floorLog2_le (n b : Nat) (hn : 0 < n) (hb : 0 < b) :
    (2 : ℚ) ^ floorLog2 n b ≤ (n : ℚ) / (b : ℚ) := by
  have hbq : (0 : ℚ) < b := by exact_mod_cast hb
  unfold floorLog2
  simp only
  split
  · rename_i h
    have hq := scalePow2_den_pos n b (-((bitLog2 n : Int) - (bitLog2 b : Int))) hb
    have hr := scalePow2_ratio n b (-((bitLog2 n : Int) - (bitLog2 b : Int))) hb
    have hqq : (0 : ℚ) < ((scalePow2 n b (-((bitLog2 n : Int) - (bitLog2 b : Int)))).2 : ℚ) := by
      exact_mod_cast hq
    have h1 : (1 : ℚ) ≤ ((scalePow2 n b (-((bitLog2 n : Int) - (bitLog2 b : Int)))).1 : ℚ)
        / ((scalePow2 n b (-((bitLog2 n : Int) - (bitLog2 b : Int)))).2 : ℚ) := by
      rw [one_le_div hqq]
      exact_mod_cast h
    rw [hr, zpow_neg] at h1
    have hpos : (0 : ℚ) < (2 : ℚ) ^ ((bitLog2 n : Int) - (bitLog2 b : Int)) := by positivity
    have := mul_le_mul_of_nonneg_right h1 hpos.le
    rw [one_mul, mul_assoc, inv_mul_cancel₀ hpos.ne', mul_one] at this
    exact this
  · obtain ⟨hn1, -⟩ := bitLog2_spec n hn
    obtain ⟨-, hb2⟩ := bitLog2_spec b hb
    have hn1q : (2 : ℚ) ^ (bitLog2 n) ≤ (n : ℚ) := by exact_mod_cast hn1
    have hb2q : (b : ℚ) < (2 : ℚ) ^ (bitLog2 b + 1) := by exact_mod_cast hb2
    have he : (2 : ℚ) ^ ((bitLog2 n : Int) - (bitLog2 b : Int) - 1)
        = (2 : ℚ) ^ (bitLog2 n) / (2 : ℚ) ^ (bitLog2 b + 1) := by
      rw [show ((bitLog2 n : Int) - (bitLog2 b : Int) - 1)
        = (bitLog2 n : Int) - ((bitLog2 b + 1 : Nat) : Int) by push_cast; ring]
      rw [zpow_sub₀ (by norm_num), zpow_natCast, zpow_natCast]
    rw [he]
    have hp : (0 : ℚ) < (2 : ℚ) ^ (bitLog2 b + 1) := by positivity
    rw [div_le_div_iff₀ hp hbq]
    calc (2 : ℚ) ^ bitLog2 n * (b : ℚ) ≤ (n : ℚ) * (b : ℚ) :=
          mul_le_mul_of_nonneg_right hn1q hbq.le
      _ ≤ (n : ℚ) * (2 : ℚ) ^ (bitLog2 b + 1) :=
          mul_le_mul_of_nonneg_left hb2q.le (by positivity)

theorem roundNearestEven_err (p q : Nat) (hq : 0 < q) :
    |((roundNearestEven p q : Nat) : ℚ) - (p : ℚ) / (q : ℚ)| ≤ 1 / 2 := by
  have hqq : (0 : ℚ) < q := by exact_mod_cast hq
  have hdm : (p : ℚ) = (q : ℚ) * ((p / q : Nat) : ℚ) + ((p % q : Nat) : ℚ) := by
    exact_mod_cast (Nat.div_add_mod p q).symm
  have hrlt : ((p % q : Nat) : ℚ) < q := by exact_mod_cast Nat.mod_lt p hq
  have hr0 : (0 : ℚ) ≤ ((p % q : Nat) : ℚ) := by positivity
  have hfrac : (p : ℚ) / (q : ℚ) = ((p / q : Nat) : ℚ) + ((p % q : Nat) : ℚ) / q := by
    rw [eq_comm, ← sub_eq_zero]
    field_simp
    rw [hdm]
    ring
  unfold roundNearestEven
  rw [abs_le]
  split
  · rename_i h
    have h2 : (2 : ℚ) * ((p % q : Nat) : ℚ) < q := by exact_mod_cast h
    have : ((p % q : Nat) : ℚ) / q < 1 / 2 := by
      rw [div_lt_iff₀ hqq]; linarith
    have h0 : (0 : ℚ) ≤ ((p % q : Nat) : ℚ) / q := by positivity
    rw [hfrac]
    constructor <;> linarith
  · split
    · rename_i h
      have h2 : (q : ℚ) < 2 * ((p % q : Nat) : ℚ) := by exact_mod_cast h
      have h3 : (1 : ℚ) / 2 < ((p % q : Nat) : ℚ) / q := by
        rw [lt_div_iff₀ hqq]; linarith
      have h4 : ((p % q : Nat) : ℚ) / q < 1 := by
        rw [div_lt_one hqq]; exact hrlt
      rw [hfrac]
      push_cast
      constructor <;> linarith
    · rename_i h1 h2
      have heq : 2 * (p % q) = q := by omega
      have h3 : ((p % q : Nat) : ℚ) / q = 1 / 2 := by
        rw [div_eq_iff hqq.ne']
        have : (2 : ℚ) * ((p % q : Nat) : ℚ) = q := by exact_mod_cast heq
        linarith
      rw [hfrac, h3]
      split
      · constructor <;> linarith
      · push_cast
        constructor <;> linarith

theorem roundNearestEven_exact (p q N : Nat) (hq : 0 < q) (h : p = N * q) :
    roundNearestEven p q = N := by
  unfold roundNearestEven
  subst h
  have h1 : N * q % q = 0 := Nat.mul_mod_left N q
  have h2 : N * q / q = N := Nat.mul_div_cancel N hq
  rw [h1, h2]
  simp [hq]

theorem round_toRat_pos (num : Int) (den : Nat) (hnum : 0 < num) :
    (F64.round num den).toRat
      = ((roundNearestEven (scalePow2 num.natAbs den (52 - floorLog2 num.natAbs den)).1
          (scalePow2 num.natAbs den (52 - floorLog2 num.natAbs den)).2 : Nat) : ℚ)
        * (2 : ℚ) ^ (floorLog2 num.natAbs den - 52) := by
  unfold F64.round F64.toRat
  rw [if_neg hnum.ne']
  simp only [if_pos hnum]
  push_cast
  rfl

theorem round_toRat_neg (num : Int) (den : Nat) (hnum : num < 0) :
    (F64.round num den).toRat
      = -(((roundNearestEven (scalePow2 num.natAbs den (52 - floorLog2 num.natAbs den)).1
          (scalePow2 num.natAbs den (52 - floorLog2 num.natAbs den)).2 : Nat) : ℚ)
        * (2 : ℚ) ^ (floorLog2 num.natAbs den - 52)) := by
  unfold F64.round F64.toRat
  rw [if_neg hnum.ne]
  have : ¬ (0 < num) := by omega
  simp only [if_neg this]
  push_cast
  ring

theorem round_zero (den : Nat) : (F64.round 0 den).toRat = 0 := by
  simp [F64.round, F64.toRat]

theorem natAbs_cast_abs (num : Int) : ((num.natAbs : Nat) : ℚ) = |(num : ℚ)| := by
  rw [Nat.cast_natAbs, Int.cast_abs]

theorem round_mag (num : Int) (den : Nat) (hnum : num ≠ 0) (hden : 0 < den) :
    (2 : ℚ) ^ floorLog2 num.natAbs den ≤ |(num : ℚ) / (den : ℚ)| ∧
    |((roundNearestEven (scalePow2 num.natAbs den (52 - floorLog2 num.natAbs den)).1
          (scalePow2 num.natAbs den (52 - floorLog2 num.natAbs den)).2 : Nat) : ℚ)
        * (2 : ℚ) ^ (floorLog2 num.natAbs den - 52) - abs ((num : ℚ) / (den : ℚ))|
      ≤ (2 : ℚ) ^ (floorLog2 num.natAbs den - 53) := by
  have ha : 0 < num.natAbs := Int.natAbs_pos.2 hnum
  have hdq : (0 : ℚ) < den := by exact_mod_cast hden
  have habs : |(num : ℚ) / (den : ℚ)| = ((num.natAbs : Nat) : ℚ) / (den : ℚ) := by
    rw [abs_div, natAbs_cast_abs, abs_of_pos hdq]
  rw [habs]
  refine ⟨floorLog2_le _ _ ha hden, ?_⟩
  generalize floorLog2 num.natAbs den = e
  have hq := scalePow2_den_pos num.natAbs den (52 - e) hden
  have hr := scalePow2_ratio num.natAbs den (52 - e) hden
  have herr := roundNearestEven_err (scalePow2 num.natAbs den (52 - e)).1
    (scalePow2 num.natAbs den (52 - e)).2 hq
  rw [hr] at herr
  have hp : (0 : ℚ) < (2 : ℚ) ^ (e - 52) := by positivity
  have h1 : (2 : ℚ) ^ (52 - e) * (2 : ℚ) ^ (e - 52) = 1 := by
    rw [← zpow_add₀ (by norm_num)]
    simp
  have h2 : (2 : ℚ) ^ (e - 53) = 1 / 2 * (2 : ℚ) ^ (e - 52) := by
    rw [show e - 53 = (e - 52) + (-1) by ring, zpow_add₀ (by norm_num)]
    norm_num
    ring
  rw [h2]
  have h3 := mul_le_mul_of_nonneg_right herr hp.le
  rw [← abs_of_pos hp, ← abs_mul, abs_of_pos hp, sub_mul, mul_assoc, h1, mul_one] at h3
  exact h3

theorem round_core (num : Int) (den : Nat) (hnum : num ≠ 0) (hden : 0 < den) :
    ∃ e : Int, (2 : ℚ) ^ e ≤ |(num : ℚ) / (den : ℚ)| ∧
      |(F64.round num den).toRat - (num : ℚ) / (den : ℚ)| ≤ (2 : ℚ) ^ (e - 53) := by
  obtain ⟨h1, h2⟩ := round_mag num den hnum hden
  refine ⟨floorLog2 num.natAbs den, h1, ?_⟩
  have hdq : (0 : ℚ) < den := by exact_mod_cast hden
  rcases lt_or_gt_of_ne hnum with hneg | hpos
  · rw [round_toRat_neg num den hneg]
    have hx : (num : ℚ) / (den : ℚ) < 0 := by
      apply div_neg_of_neg_of_pos _ hdq
      exact_mod_cast hneg
    rw [abs_of_neg hx] at h2
    rw [← abs_neg]
    have : -(-(((roundNearestEven (scalePow2 num.natAbs den (52 - floorLog2 num.natAbs den)).1
          (scalePow2 num.natAbs den (52 - floorLog2 num.natAbs den)).2 : Nat) : ℚ)
        * (2 : ℚ) ^ (floorLog2 num.natAbs den - 52)) - (num : ℚ) / (den : ℚ))
        = ((roundNearestEven (scalePow2 num.natAbs den (52 - floorLog2 num.natAbs den)).1
          (scalePow2 num.natAbs den (52 - floorLog2 num.natAbs den)).2 : Nat) : ℚ)
        * (2 : ℚ) ^ (floorLog2 num.natAbs den - 52) - -((num : ℚ) / (den : ℚ)) := by ring
    rw [this]
    exact h2
  · rw [round_toRat_pos num den hpos]
    have hx : 0 < (num : ℚ) / (den : ℚ) := by
      apply div_pos _ hdq
      exact_mod_cast hpos
    rw [abs_of_pos hx] at h2
    exact h2

theorem round_err (num : Int) (den : Nat) (hden : 0 < den) (k : Int)
    (hk : |(num : ℚ) / (den : ℚ)| < (2 : ℚ) ^ k) :
    |(F64.round num den).toRat - (num : ℚ) / (den : ℚ)| ≤ (2 : ℚ) ^ (k - 54) := by
  by_cases hnum : num = 0
  · subst hnum
    rw [round_zero]
    simp
    positivity
  · obtain ⟨e, h1, h2⟩ := round_core num den hnum hden
    have hlt : (2 : ℚ) ^ e < (2 : ℚ) ^ k := lt_of_le_of_lt h1 hk
    have hek : e < k := (zpow_lt_zpow_iff_right₀ (by norm_num)).1 hlt
    refine le_trans h2 ?_
    apply zpow_le_zpow_right₀ (by norm_num)
    omega

theorem round_rel (num : Int) (den : Nat) (hden : 0 < den) :
    |(F64.round num den).toRat - (num : ℚ) / (den : ℚ)|
      ≤ |(num : ℚ) / (den : ℚ)| / 2 := by
  by_cases hnum : num = 0
  · subst hnum
    rw [round_zero]
    simp
  · obtain ⟨e, h1, h2⟩ := round_core num den hnum hden
    refine le_trans h2 ?_
    have : (2 : ℚ) ^ (e - 53) ≤ (2 : ℚ) ^ e / 2 := by
      rw [show e - 53 = e + (-53) by ring, zpow_add₀ (by norm_num), div_eq_mul_inv]
      apply mul_le_mul_of_nonneg_left _ (by positivity)
      norm_num
    refine le_trans this ?_
    exact div_le_div_of_nonneg_right h1 (by norm_num)

theorem round_exact_abs (num : Int) (den : Nat) (hnum : num ≠ 0) (hden : 0 < den) (j t : Int)
    (hj : |j| < 2 ^ 53) (hx : (num : ℚ) / (den : ℚ) = (j : ℚ) * (2 : ℚ) ^ t) :
    ((roundNearestEven (scalePow2 num.natAbs den (52 - floorLog2 num.natAbs den)).1
          (scalePow2 num.natAbs den (52 - floorLog2 num.natAbs den)).2 : Nat) : ℚ)
        * (2 : ℚ) ^ (floorLog2 num.natAbs den - 52) = |(num : ℚ) / (den : ℚ)| := by
  obtain ⟨h1, -⟩ := round_mag num den hnum hden
  have hdq : (0 : ℚ) < den := by exact_mod_cast hden
  have habs : |(num : ℚ) / (den : ℚ)| = ((num.natAbs : Nat) : ℚ) / (den : ℚ) := by
    rw [abs_div, natAbs_cast_abs, abs_of_pos hdq]
  have hpt : (0 : ℚ) < (2 : ℚ) ^ t := by positivity
  have habs2 : |(num : ℚ) / (den : ℚ)| = ((j.natAbs : Nat) : ℚ) * (2 : ℚ) ^ t := by
    rw [hx, abs_mul, abs_of_pos hpt, natAbs_cast_abs]
  have hjq : ((j.natAbs : Nat) : ℚ) < (2 : ℚ) ^ (53 : Int) := by
    rw [natAbs_cast_abs, ← Int.cast_abs]
    have : ((|j| : Int) : ℚ) < ((2 ^ 53 : Int) : ℚ) := by exact_mod_cast hj
    refine lt_of_lt_of_le this ?_
    norm_num
  generalize floorLog2 num.natAbs den = e at h1 ⊢
  have hlt : (2 : ℚ) ^ e < (2 : ℚ) ^ (53 + t) := by
    rw [habs2] at h1
    refine lt_of_le_of_lt h1 ?_
    rw [zpow_add₀ (by norm_num)]
    exact mul_lt_mul_of_pos_right hjq hpt
  have hek : e < 53 + t := (zpow_lt_zpow_iff_right₀ (by norm_num)).1 hlt
  have hk : 0 ≤ t + 52 - e := by omega
  have hq := scalePow2_den_pos num.natAbs den (52 - e) hden
  have hr := scalePow2_ratio num.natAbs den (52 - e) hden
  have hqq : (0 : ℚ) < ((scalePow2 num.natAbs den (52 - e)).2 : ℚ) := by exact_mod_cast hq
  have hpow : (2 : ℚ) ^ t * (2 : ℚ) ^ (52 - e) = (2 : ℚ) ^ ((t + 52 - e).toNat) := by
    rw [← zpow_add₀ (by norm_num), ← zpow_natCast, Int.toNat_of_nonneg hk]
    congr 1
    ring
  have hN : ((scalePow2 num.natAbs den (52 - e)).1 : ℚ)
      = ((j.natAbs * 2 ^ (t + 52 - e).toNat : Nat) : ℚ)
        * ((scalePow2 num.natAbs den (52 - e)).2 : ℚ) := by
    rw [← div_eq_iff hqq.ne', hr, ← habs, habs2, mul_assoc, hpow]
    push_cast
    ring
  have hNn : (scalePow2 num.natAbs den (52 - e)).1
      = (j.natAbs * 2 ^ (t + 52 - e).toNat) * (scalePow2 num.natAbs den (52 - e)).2 := by
    exact_mod_cast hN
  rw [roundNearestEven_exact _ _ _ hq hNn, habs2]
  push_cast
  rw [mul_assoc]
  congr 1
  rw [← hpow, mul_assoc, ← zpow_add₀ (by norm_num)]
  simp

theorem round_exact (num : Int) (den : Nat) (hden : 0 < den) (j t : Int)
    (hj : |j| < 2 ^ 53) (hx : (num : ℚ) / (den : ℚ) = (j : ℚ) * (2 : ℚ) ^ t) :
    (F64.round num den).toRat = (num : ℚ) / (den : ℚ) := by
  have hdq : (0 : ℚ) < den := by exact_mod_cast hden
  by_cases hnum : num = 0
  · subst hnum
    rw [round_zero]
    simp
  · have h := round_exact_abs num den hnum hden j t hj hx
    rcases lt_or_gt_of_ne hnum with hneg | hpos
    · rw [round_toRat_neg num den hneg, h]
      have hxn : (num : ℚ) / (den : ℚ) < 0 := by
        apply div_neg_of_neg_of_pos _ hdq
        exact_mod_cast hneg
      rw [abs_of_neg hxn, neg_neg]
    · rw [round_toRat_pos num den hpos, h]
      have hxp : 0 < (num : ℚ) / (den : ℚ) := by
        apply div_pos _ hdq
        exact_mod_cast hpos
      rw [abs_of_pos hxp]

theorem F64.lt_iff (a b : F64) : F64.lt a b = true ↔ a.toRat < b.toRat := by
  unfold F64.lt F64.toRat
  simp only [decide_eq_true_eq]
  have ha : 0 ≤ a.e - min a.e b.e := by have := min_le_left a.e b.e; omega
  have hb : 0 ≤ b.e - min a.e b.e := by have := min_le_right a.e b.e; omega
  have hp : (0 : ℚ) < (2 : ℚ) ^ (min a.e b.e) := by positivity
  have ea : (a.m : ℚ) * (2 : ℚ) ^ a.e
      = ((a.m * 2 ^ (a.e - min a.e b.e).toNat : Int) : ℚ) * (2 : ℚ) ^ (min a.e b.e) := by
    push_cast
    rw [mul_assoc, ← zpow_natCast, Int.toNat_of_nonneg ha, ← zpow_add₀ (by norm_num)]
    simp
  have eb : (b.m : ℚ) * (2 : ℚ) ^ b.e
      = ((b.m * 2 ^ (b.e - min a.e b.e).toNat : Int) : ℚ) * (2 : ℚ) ^ (min a.e b.e) := by
    push_cast
    rw [mul_assoc, ← zpow_natCast, Int.toNat_of_nonneg hb, ← zpow_add₀ (by norm_num)]
    simp
  rw [ea, eb, mul_lt_mul_right hp]
  exact Int.cast_lt.symm

theorem F64.ofInt_eq (n : Int) : F64.ofInt n = F64.round n 1 := rfl

theorem F64.divNat_spec (a : F64) (c : Nat) (hc : 0 < c) :
    ∃ (num : Int) (den : Nat), 0 < den ∧ F64.divNat a c = F64.round num den ∧
      (num : ℚ) / (den : ℚ) = a.toRat / (c : ℚ) := by
  have hcq : (c : ℚ) ≠ 0 := by exact_mod_cast hc.ne'
  unfold F64.divNat F64.toRat
  split
  · rename_i h
    refine ⟨_, c, hc, rfl, ?_⟩
    push_cast
    rw [← zpow_natCast, Int.toNat_of_nonneg h]
  · rename_i h
    have h2 : 0 ≤ -a.e := by omega
    refine ⟨_, _, Nat.mul_pos hc (pow_pos (by norm_num) _), rfl, ?_⟩
    push_cast
    rw [← zpow_natCast, Int.toNat_of_nonneg h2, zpow_neg]
    field_simp

theorem F64.add_spec (a b : F64) :
    ∃ (num : Int) (den : Nat), 0 < den ∧ F64.add a b = F64.round num den ∧
      (num : ℚ) / (den : ℚ) = a.toRat + b.toRat := by
  have ha : 0 ≤ a.e - min a.e b.e := by have := min_le_left a.e b.e; omega
  have hb : 0 ≤ b.e - min a.e b.e := by have := min_le_right a.e b.e; omega
  have hsum : a.toRat + b.toRat
      = ((a.m * 2 ^ (a.e - min a.e b.e).toNat + b.m * 2 ^ (b.e - min a.e b.e).toNat : Int) : ℚ)
        * (2 : ℚ) ^ (min a.e b.e) := by
    unfold F64.toRat
    push_cast
    rw [add_mul, mul_assoc, mul_assoc, ← zpow_natCast, ← zpow_natCast, Int.toNat_of_nonneg ha,
      Int.toNat_of_nonneg hb, ← zpow_add₀ (by norm_num), ← zpow_add₀ (by norm_num)]
    simp
  unfold F64.add
  simp only
  split
  · rename_i h
    refine ⟨_, 1, Nat.one_pos, rfl, ?_⟩
    have e1 : (2 : ℚ) ^ (min a.e b.e).toNat = (2 : ℚ) ^ (min a.e b.e) := by
      rw [← zpow_natCast, Int.toNat_of_nonneg h]
    rw [hsum]
    push_cast
    rw [e1]
    simp
  · rename_i h
    have h2 : 0 ≤ -(min a.e b.e) := by omega
    refine ⟨_, _, pow_pos (by norm_num) _, rfl, ?_⟩
    have e1 : (2 : ℚ) ^ (-(min a.e b.e)).toNat = ((2 : ℚ) ^ (min a.e b.e))⁻¹ := by
      rw [← zpow_natCast, Int.toNat_of_nonneg h2, zpow_neg]
    rw [hsum]
    push_cast
    rw [e1]
    field_simp

theorem tmod_gt (d : Int) : -1000000000 < d.tmod 1000000000 := by
  rcases d with n | n
  · have := Int.tmod_nonneg (1000000000) (Int.ofNat_nonneg n)
    have h2 : (Int.ofNat n).tmod 1000000000 = (n : Int).tmod 1000000000 := rfl
    rw [h2]
    omega
  · show (-1000000000 : Int) < -((n.succ % 1000000000 : Nat) : Int)
    have : n.succ % 1000000000 < 1000000000 := Nat.mod_lt _ (by norm_num)
    omega

theorem ofInt_exact (n : Int) (h : |n| < 2 ^ 53) : (F64.ofInt n).toRat = (n : ℚ) := by
  have := round_exact n 1 Nat.one_pos n 0 h (by simp)
  simpa [F64.ofInt] using this

theorem divNat_err (a : F64) (c : Nat) (hc : 0 < c) (k : Int)
    (hk : |a.toRat / (c : ℚ)| < (2 : ℚ) ^ k) :
    |(F64.divNat a c).toRat - a.toRat / (c : ℚ)| ≤ (2 : ℚ) ^ (k - 54) := by
  obtain ⟨num, den, hden, heq, hr⟩ := F64.divNat_spec a c hc
  rw [heq, ← hr]
  rw [← hr] at hk
  exact round_err num den hden k hk

theorem divNat_exact (a : F64) (c : Nat) (hc : 0 < c) (j t : Int) (hj : |j| < 2 ^ 53)
    (hx : a.toRat / (c : ℚ) = (j : ℚ) * (2 : ℚ) ^ t) :
    (F64.divNat a c).toRat = a.toRat / (c : ℚ) := by
  obtain ⟨num, den, hden, heq, hr⟩ := F64.divNat_spec a c hc
  rw [heq, ← hr]
  rw [← hr] at hx
  exact round_exact num den hden j t hj hx

theorem divNat_rel (a : F64) (c : Nat) (hc : 0 < c) :
    |(F64.divNat a c).toRat - a.toRat / (c : ℚ)| ≤ |a.toRat / (c : ℚ)| / 2 := by
  obtain ⟨num, den, hden, heq, hr⟩ := F64.divNat_spec a c hc
  rw [heq, ← hr]
  exact round_rel num den hden

theorem add_err (a b : F64) (k : Int) (hk : |a.toRat + b.toRat| < (2 : ℚ) ^ k) :
    |(F64.add a b).toRat - (a.toRat + b.toRat)| ≤ (2 : ℚ) ^ (k - 54) := by
  obtain ⟨num, den, hden, heq, hr⟩ := F64.add_spec a b
  rw [heq, ← hr]
  rw [← hr] at hk
  exact round_err num den hden k hk

theorem add_exact (a b : F64) (j t : Int) (hj : |j| < 2 ^ 53)
    (hx : a.toRat + b.toRat = (j : ℚ) * (2 : ℚ) ^ t) :
    (F64.add a b).toRat = a.toRat + b.toRat := by
  obtain ⟨num, den, hden, heq, hr⟩ := F64.add_spec a b
  rw [heq, ← hr]
  rw [← hr] at hx
  exact round_exact num den hden j t hj hx

theorem tdiv_tmod_facts (d : Int) (hd : |d| < 16777216 * 1000000000) :
    1000000000 * d.tdiv 1000000000 + d.tmod 1000000000 = d ∧
    -1000000000 < d.tmod 1000000000 ∧ d.tmod 1000000000 < 1000000000 ∧
    |d.tdiv 1000000000| ≤ 16777216 := by
  have h1 := Int.tdiv_add_tmod d 1000000000
  have h2 := tmod_gt d
  have h3 := Int.tmod_lt_of_pos d (show (0 : Int) < 1000000000 by norm_num)
  refine ⟨h1, h2, h3, ?_⟩
  rw [abs_lt] at hd
  rw [abs_le]
  constructor <;> omega

theorem seconds_close (d : Int) (hd : |d| < 16777216 * 1000000000) :
    |(Duration.Seconds d).toRat - (d : ℚ) / 1000000000|
      ≤ (2 : ℚ) ^ (-30 : Int) + (2 : ℚ) ^ (-54 : Int) := by
  obtain ⟨h1, h2, h3, h4⟩ := tdiv_tmod_facts d hd
  unfold Duration.Seconds Second
  generalize d.tdiv 1000000000 = sec at *
  generalize d.tmod 1000000000 = nsec at *
  have hsec : (F64.ofInt sec).toRat = (sec : ℚ) := by
    apply ofInt_exact
    rw [abs_le] at h4
    rw [abs_lt]
    constructor <;> omega
  have hnsec : (F64.ofInt nsec).toRat = (nsec : ℚ) := by
    apply ofInt_exact
    rw [abs_lt]
    constructor <;> omega
  have hx : (d : ℚ) / 1000000000 = (sec : ℚ) + (nsec : ℚ) / 1000000000 := by
    rw [← h1]
    push_cast
    field_simp
    ring
  have hn1 : |(nsec : ℚ) / 1000000000| < (2 : ℚ) ^ (0 : Int) := by
    rw [zpow_zero, abs_lt]
    have a1 : (-1000000000 : ℚ) < (nsec : ℚ) := by exact_mod_cast h2
    have a2 : (nsec : ℚ) < 1000000000 := by exact_mod_cast h3
    constructor
    · rw [lt_div_iff₀ (by norm_num)]; linarith
    · rw [div_lt_iff₀ (by norm_num)]; linarith
  have hq := divNat_err (F64.ofInt nsec) 1000000000 (by norm_num) 0
    (by rw [hnsec]; exact_mod_cast hn1)
  rw [hnsec] at hq
  simp only [Nat.cast_ofNat] at hq
  have hdq : |(d : ℚ) / 1000000000| ≤ 16777216 - 1 / 1000000000 := by
    rw [abs_lt] at hd
    have b1 : (-(16777216 * 1000000000) + 1 : ℚ) ≤ (d : ℚ) := by
      have : (-(16777216 * 1000000000) + 1 : Int) ≤ d := by omega
      exact_mod_cast this
    have b2 : (d : ℚ) ≤ 16777216 * 1000000000 - 1 := by
      have : d ≤ (16777216 * 1000000000 - 1 : Int) := by omega
      exact_mod_cast this
    rw [abs_le]
    constructor
    · rw [le_div_iff₀ (by norm_num)]; linarith
    · rw [div_le_iff₀ (by norm_num)]; linarith
  have hy : |(F64.ofInt sec).toRat + (F64.divNat (F64.ofInt nsec) 1000000000).toRat|
      < (2 : ℚ) ^ (24 : Int) := by
    rw [hsec]
    have e1 : (sec : ℚ) + (F64.divNat (F64.ofInt nsec) 1000000000).toRat
        = (d : ℚ) / 1000000000
          + ((F64.divNat (F64.ofInt nsec) 1000000000).toRat - (nsec : ℚ) / 1000000000) := by
      rw [hx]; ring
    rw [e1]
    refine lt_of_le_of_lt (abs_add _ _) ?_
    have : (2 : ℚ) ^ (0 - 54 : Int) < 1 / 1000000000 := by norm_num
    have e24 : (2 : ℚ) ^ (24 : Int) = 16777216 := by norm_num
    rw [e24]
    linarith
  have hs := add_err (F64.ofInt sec) (F64.divNat (F64.ofInt nsec) 1000000000) 24 hy
  rw [hsec] at hs
  have e2 : (F64.add (F64.ofInt sec) (F64.divNat (F64.ofInt nsec) 1000000000)).toRat
        - (d : ℚ) / 1000000000
      = ((F64.add (F64.ofInt sec) (F64.divNat (F64.ofInt nsec) 1000000000)).toRat
          - ((sec : ℚ) + (F64.divNat (F64.ofInt nsec) 1000000000).toRat))
        + ((F64.divNat (F64.ofInt nsec) 1000000000).toRat - (nsec : ℚ) / 1000000000) := by
    rw [hx]; ring
  rw [e2]
  refine le_trans (abs_add _ _) ?_
  have e30 : (24 - 54 : Int) = -30 := by norm_num
  have e54 : (0 - 54 : Int) = -54 := by norm_num
  rw [e30] at hs
  rw [e54] at hq
  exact add_le_add hs hq

theorem seconds_exact (d j : Int) (hd : |d| < 16777216 * 1000000000)
    (hj : d = j * 500000000) :
    (Duration.Seconds d).toRat = (d : ℚ) / 1000000000 := by
  obtain ⟨h1, h2, h3, h4⟩ := tdiv_tmod_facts d hd
  unfold Duration.Seconds Second
  generalize d.tdiv 1000000000 = sec at *
  generalize d.tmod 1000000000 = nsec at *
  have hsec : (F64.ofInt sec).toRat = (sec : ℚ) := by
    apply ofInt_exact
    rw [abs_le] at h4
    rw [abs_lt]
    constructor <;> omega
  have hnsec : (F64.ofInt nsec).toRat = (nsec : ℚ) := by
    apply ofInt_exact
    rw [abs_lt]
    constructor <;> omega
  have hx : (d : ℚ) / 1000000000 = (sec : ℚ) + (nsec : ℚ) / 1000000000 := by
    rw [← h1]
    push_cast
    field_simp
    ring
  have hn : nsec = (j - 2 * sec) * 500000000 := by omega
  have hjs : |j - 2 * sec| < 2 ^ 53 := by
    rw [abs_lt]
    constructor <;> omega
  have hq : (F64.divNat (F64.ofInt nsec) 1000000000).toRat = (nsec : ℚ) / 1000000000 := by
    have := divNat_exact (F64.ofInt nsec) 1000000000 (by norm_num) (j - 2 * sec) (-1) hjs
      (by
        rw [hnsec, hn]
        push_cast
        norm_num
        ring)
    rw [this, hnsec]
    norm_num
  have hjb : |j| < 2 ^ 53 := by
    rw [abs_lt] at hd ⊢
    constructor <;> omega
  have hsum : (F64.ofInt sec).toRat + (F64.divNat (F64.ofInt nsec) 1000000000).toRat
      = (j : ℚ) * (2 : ℚ) ^ (-1 : Int) := by
    rw [hsec, hq, ← hx, hj]
    push_cast
    norm_num
    ring
  rw [add_exact _ _ j (-1) hjb hsum, hsec, hq, hx]

theorem half_exact (rpo : Int) (h : |rpo| < 2 ^ 53) :
    (F64.divNat (F64.ofInt rpo) 2).toRat = (rpo : ℚ) / 2 := by
  have h1 := ofInt_exact rpo h
  have := divNat_exact (F64.ofInt rpo) 2 (by norm_num) rpo (-1) h
    (by rw [h1]; norm_num; ring)
  rw [this, h1]
  norm_num

theorem half_large (rpo : Int) (h : 2 ^ 53 ≤ |rpo|) :
    (0 < rpo → (2 : ℚ) ^ (50 : Int) ≤ (F64.divNat (F64.ofInt rpo) 2).toRat) ∧
    (rpo < 0 → (F64.divNat (F64.ofInt rpo) 2).toRat ≤ -(2 : ℚ) ^ (50 : Int)) := by
  have hr := round_rel rpo 1 Nat.one_pos
  simp only [Nat.cast_one, div_one] at hr
  have hd := divNat_rel (F64.ofInt rpo) 2 (by norm_num)
  simp only [Nat.cast_ofNat] at hd
  have hR : (F64.ofInt rpo).toRat = (F64.round rpo 1).toRat := rfl
  rw [hR] at hd
  have hq : ((2 ^ 53 : Int) : ℚ) ≤ |(rpo : ℚ)| := by
    rw [← Int.cast_abs]
    exact_mod_cast h
  have e53 : ((2 ^ 53 : Int) : ℚ) = (2 : ℚ) ^ (50 : Int) * 8 := by norm_num
  rw [e53] at hq
  generalize (F64.round rpo 1).toRat = R at *
  generalize (F64.divNat (F64.ofInt rpo) 2).toRat = H at *
  generalize (2 : ℚ) ^ (50 : Int) = B at *
  constructor
  · intro hpos
    have hp : (0 : ℚ) < rpo := by exact_mod_cast hpos
    rw [abs_of_pos hp] at hq hr
    rw [abs_le] at hr
    have hRpos : 0 < R / 2 := by linarith
    rw [abs_of_pos hRpos, abs_le] at hd
    linarith
  · intro hneg
    have hn : (rpo : ℚ) < 0 := by exact_mod_cast hneg
    rw [abs_of_neg hn] at hq hr
    rw [abs_le] at hr
    have hRneg : R / 2 < 0 := by linarith
    rw [abs_of_neg hRneg, abs_le] at hd
    linarith

theorem wrapInt64_id (x : Int) (h1 : -9223372036854775808 ≤ x) (h2 : x ≤ 9223372036854775807) :
    wrapInt64 x = x := by
  unfold wrapInt64
  omega

theorem sub_exact (now endTime : Int) (hE : |endTime| ≤ 4611686018427387904)
    (hD : |now - endTime * 1000000000| < 16777216 * 1000000000) :
    Time.Sub (time.Now now) (time.Unix endTime) = now - endTime * 1000000000 := by
  rw [abs_le] at hE
  rw [abs_lt] at hD
  unfold Time.Sub time.Now time.Unix Second unixToInternal minDuration maxDuration
  simp only
  rw [wrapInt64_id (now / 1000000000 + 62135596800) (by omega) (by omega),
    wrapInt64_id (endTime + 62135596800) (by omega) (by omega)]
  have : (now / 1000000000 + 62135596800 - (endTime + 62135596800)) * 1000000000
      + (now % 1000000000 - 0) = now - endTime * 1000000000 := by omega
  rw [this]
  rw [if_neg (by omega), if_neg (by omega)]

theorem recent_iff (rpo now endTime : Int) (hE : |endTime| ≤ 4611686018427387904)
    (hD : |now - endTime * 1000000000| < 16777216 * 1000000000) :
    F64.lt (Duration.Seconds (Time.Sub (time.Now now) (time.Unix endTime)))
        (F64.divNat (F64.ofInt rpo) 2) = true ↔
      (now : ℚ) / 1000000000 - (endTime : ℚ) < (rpo : ℚ) / 2 := by
  rw [F64.lt_iff, sub_exact now endTime hE hD]
  generalize hd : now - endTime * 1000000000 = d at hD
  have hx : (now : ℚ) / 1000000000 - (endTime : ℚ) = (d : ℚ) / 1000000000 := by
    rw [← hd]
    push_cast
    field_simp
    ring
  rw [hx]
  have hclose := seconds_close d hD
  have heps : (2 : ℚ) ^ (-30 : Int) + (2 : ℚ) ^ (-54 : Int) < 1 / 1000000000 := by norm_num
  have hdb : |(d : ℚ) / 1000000000| < 16777216 := by
    have : |(d : ℚ)| < 16777216 * 1000000000 := by
      rw [← Int.cast_abs]
      exact_mod_cast hD
    rw [abs_div, abs_of_pos (show (0 : ℚ) < 1000000000 by norm_num),
      div_lt_iff₀ (by norm_num)]
    exact this
  rw [abs_le] at hclose
  rw [abs_lt] at hdb
  by_cases hsmall : |rpo| < 2 ^ 53
  · rw [half_exact rpo hsmall]
    constructor
    · intro hlt
      by_contra hnot
      push_neg at hnot
      have hge : rpo * 500000000 ≤ d := by
        have : (rpo : ℚ) * 500000000 ≤ (d : ℚ) := by
          rw [le_div_iff₀ (by norm_num)] at hnot
          linarith
        exact_mod_cast this
      rcases eq_or_lt_of_le hge with heq | hgt
      · have hex := seconds_exact d rpo hD heq.symm
        rw [hex, ← heq] at hlt
        push_cast at hlt
        linarith
      · have h1 : rpo * 500000000 + 1 ≤ d := by omega
        have h2 : (rpo : ℚ) * 500000000 + 1 ≤ (d : ℚ) := by exact_mod_cast h1
        have h3 : (rpo : ℚ) / 2 + 1 / 1000000000 ≤ (d : ℚ) / 1000000000 := by
          rw [le_div_iff₀ (by norm_num)]
          linarith
        linarith
    · intro hlt
      have h1 : d < rpo * 500000000 := by
        have : (d : ℚ) < (rpo : ℚ) * 500000000 := by
          rw [div_lt_iff₀ (by norm_num)] at hlt
          linarith
        exact_mod_cast this
      have h2 : d + 1 ≤ rpo * 500000000 := by omega
      have h3 : (d : ℚ) + 1 ≤ (rpo : ℚ) * 500000000 := by exact_mod_cast h2
      have h4 : (d : ℚ) / 1000000000 + 1 / 1000000000 ≤ (rpo : ℚ) / 2 := by
        rw [← add_div, div_le_iff₀ (by norm_num)]
        linarith
      linarith
  · push_neg at hsmall
    obtain ⟨hpos, hneg⟩ := half_large rpo hsmall
    have e50 : (2 : ℚ) ^ (50 : Int) = 1125899906842624 := by norm_num
    rw [e50] at hpos hneg
    have hq : ((2 ^ 53 : Int) : ℚ) ≤ |(rpo : ℚ)| := by
      rw [← Int.cast_abs]
      exact_mod_cast hsmall
    have e53 : ((2 ^ 53 : Int) : ℚ) = 9007199254740992 := by norm_num
    rw [e53] at hq
    rcases lt_trichotomy rpo 0 with hn | hz | hp
    · have hnq : (rpo : ℚ) < 0 := by exact_mod_cast hn
      rw [abs_of_neg hnq] at hq
      have := hneg hn
      constructor
      · intro hlt; linarith
      · intro hlt; linarith
    · subst hz
      simp at hsmall
    · have hpq : (0 : ℚ) < rpo := by exact_mod_cast hp
      rw [abs_of_pos hpq] at hq
      have := hpos hp
      constructor
      · intro _; linarith
      · intro _; linarith

/-! ## The freshness predicate: theorems -/

theorem reportFilter_eq_true_iff (rpo now : Int) (r : Report) :
    reportFilter rpo now r = true ↔
      r.Policy.Action = "sync" ∧ r.State = "finished" ∧
        (diffSeconds now r).toRat < (F64.divNat (F64.ofInt rpo) 2).toRat := by
  simp only [reportFilter, apiv11.FINISHED, Bool.and_eq_true, beq_iff_eq, F64.lt_iff]
  tauto

theorem reportFilter_near_iff (rpo now : Int) (r : Report)
    (hE : |r.EndTime| ≤ 4611686018427387904)
    (hD : |now - r.EndTime * 1000000000| < 16777216 * 1000000000) :
    reportFilter rpo now r = true ↔
      r.Policy.Action = "sync" ∧ r.State = "finished" ∧
        (now : ℚ) / 1000000000 - (r.EndTime : ℚ) < (rpo : ℚ) / 2 := by
  have h := recent_iff rpo now r.EndTime hE hD
  simp only [reportFilter, diffSeconds, apiv11.FINISHED, Bool.and_eq_true, beq_iff_eq, h]
  tauto

/-- C2, as amended: the freshness predicate built by `SyncPolicy` accepts a
report exactly when its action is "sync", its state is "finished", and the
seconds elapsed from its end time to now, as Go computes them (the saturating
`Time.Sub` of the wrapped `time.Unix` value, converted to `float64`), are below
`float64(rpo) / 2`. Whenever the end time is at most `2 ^ 62` seconds in
magnitude and lies less than `2 ^ 24` seconds before or after now, this is
exactly: now minus the end time is below `rpo / 2` in exact arithmetic, the
half being the exact half (with `rpo = 41` a report that ended 20 seconds ago
is accepted) and the comparison one-sided, so that an end time after now is
accepted as well. With `rpo = 40` and a clock within `2 ^ 61` seconds of the
epoch, of the three reports that ended 10, 1000 and 1 seconds ago, the last one
a resync, the filter returns exactly the first. -/
theorem reportFilter_spec (rpo now : Int) (r : Report) :
    (reportFilter rpo now r = true ↔
      r.Policy.Action = "sync" ∧ r.State = "finished" ∧
        (Duration.Seconds (Time.Sub (time.Now now) (time.Unix r.EndTime))).toRat
          < (F64.divNat (F64.ofInt rpo) 2).toRat) ∧
    (|r.EndTime| ≤ 4611686018427387904 →
      |now - r.EndTime * 1000000000| < 16777216 * 1000000000 →
      (reportFilter rpo now r = true ↔
        r.Policy.Action = "sync" ∧ r.State = "finished" ∧
          (now : ℚ) / 1000000000 - (r.EndTime : ℚ) < (rpo : ℚ) / 2)) ∧
    (∀ t : Int, |t| ≤ 2305843009213693952 →
      reportFilter 41 (t * 1000000000)
        { Policy := { Action := "sync" }, EndTime := t - 20, State := "finished" } = true) ∧
    (∀ t : Int, |t| ≤ 2305843009213693952 →
      FilterReports
        [{ Policy := { Action := "sync" }, EndTime := t - 10, State := "finished" },
         { Policy := { Action := "sync" }, EndTime := t - 1000, State := "finished" },
         { Policy := { Action := "resync" }, EndTime := t - 1, State := "finished" }]
        (reportFilter 40 (t * 1000000000))
        = [{ Policy := { Action := "sync" }, EndTime := t - 10, State := "finished" }]) := by
  refine ⟨reportFilter_eq_true_iff rpo now r, reportFilter_near_iff rpo now r, ?_, ?_⟩
  · intro t ht
    rw [abs_le] at ht
    rw [reportFilter_near_iff _ _ _ (by simp only; rw [abs_le]; constructor <;> omega)
      (by simp only; rw [abs_lt]; constructor <;> omega)]
    refine ⟨rfl, rfl, ?_⟩
    push_cast
    rw [mul_div_assoc, div_self (by norm_num), mul_one]
    norm_num
  · intro t ht
    rw [abs_le] at ht
    have h1 : reportFilter 40 (t * 1000000000)
        { Policy := { Action := "sync" }, EndTime := t - 10, State := "finished" } = true := by
      rw [reportFilter_near_iff _ _ _ (by simp only; rw [abs_le]; constructor <;> omega)
        (by simp only; rw [abs_lt]; constructor <;> omega)]
      refine ⟨rfl, rfl, ?_⟩
      push_cast
      rw [mul_div_assoc, div_self (by norm_num), mul_one]
      norm_num
    have h2 : reportFilter 40 (t * 1000000000)
        { Policy := { Action := "sync" }, EndTime := t - 1000, State := "finished" } = false := by
      rw [← Bool.not_eq_true,
        reportFilter_near_iff _ _ _ (by simp only; rw [abs_le]; constructor <;> omega)
          (by simp only; rw [abs_lt]; constructor <;> omega)]
      rintro ⟨-, -, h⟩
      push_cast at h
      rw [mul_div_assoc, div_self (by norm_num), mul_one] at h
      norm_num at h
    have h3 : reportFilter 40 (t * 1000000000)
        { Policy := { Action := "resync" }, EndTime := t - 1, State := "finished" } = false := by
      rw [← Bool.not_eq_true, reportFilter_eq_true_iff]
      rintro ⟨h, -, -⟩
      have h0 : ("resync" : String) = "sync" := h
      exact absurd h0 (by decide)
    rw [FilterReports_eq]
    simp [List.filter_cons, h1, h2, h3]

theorem reportFilter_spec_witness :
    |({ Policy := { Action := "sync" }, EndTime := 990, State := "finished" } : Report).EndTime|
      ≤ 4611686018427387904 ∧
    reportFilter 40 1000000000000
      { Policy := { Action := "sync" }, EndTime := 990, State := "finished" } = true ∧
    reportFilter 41 (1000 * 1000000000)
      { Policy := { Action := "sync" }, EndTime := 1000 - 20, State := "finished" } = true ∧
    FilterReports
      [{ Policy := { Action := "sync" }, EndTime := 1000 - 10, State := "finished" },
       { Policy := { Action := "sync" }, EndTime := 1000 - 1000, State := "finished" },
       { Policy := { Action := "resync" }, EndTime := 1000 - 1, State := "finished" }]
      (reportFilter 40 (1000 * 1000000000))
      = [{ Policy := { Action := "sync" }, EndTime := 1000 - 10, State := "finished" }] :=
  ⟨by decide,
    ((reportFilter_spec 40 1000000000000
      { Policy := { Action := "sync" }, EndTime := 990, State := "finished" }).2.1
      (by decide) (by decide)).2 ⟨rfl, rfl, by norm_num⟩,
    (reportFilter_spec 0 0 {}).2.2.1 1000 (by decide),
    (reportFilter_spec 0 0 {}).2.2.2 1000 (by decide)⟩

/-- C2, the claim as stated fails: with `rpo = 40` and the clock at 1000
seconds, a finished sync report whose end time is 2000 seconds is accepted,
although that end time lies 1000 seconds from now and so not within 20 seconds
of now. -/
theorem reportFilter_accepts_future_end :
    reportFilter 40 (1000 * 1000000000)
      { Policy := { Action := "sync" }, EndTime := 2000, State := "finished" } = true ∧
    ¬ |((1000 * 1000000000 : Int) : ℚ) / 1000000000 - ((2000 : Int) : ℚ)|
        ≤ ((40 : Int) : ℚ) / 2 := by
  constructor
  · decide
  · norm_num [abs_lt]

/-! ## The enabled-flag setter: theorems -/

section Setter
variable {σ : Type}

theorem jobCalls_append (t u : List Call) :
    jobCalls (t ++ u) = jobCalls t + jobCalls u := by
  simp [jobCalls]

theorem SetPolicyEnabledField_of_absent (api : API σ) (name : String) (value : Bool)
    (w : World σ) (h : (api.GetPolicyByName name w.remote).1 = (none, none)) :
    SetPolicyEnabledField api name value w =
      (Outcome.ret none,
        { remote := (api.GetPolicyByName name w.remote).2
          trace := w.trace ++ [Call.GetPolicyByName name] }) := by
  simp [SetPolicyEnabledField, GetPolicyByName, apiGetPolicyByName, h]

theorem SetPolicyEnabledField_of_error (api : API σ) (name : String) (value : Bool)
    (w : World σ) (v : Option Policy) (e : Err)
    (h : (api.GetPolicyByName name w.remote).1 = (v, some e)) :
    SetPolicyEnabledField api name value w =
      (Outcome.ret (some e),
        { remote := (api.GetPolicyByName name w.remote).2
          trace := w.trace ++ [Call.GetPolicyByName name] }) := by
  simp [SetPolicyEnabledField, GetPolicyByName, apiGetPolicyByName, h]

theorem SetPolicyEnabledField_of_same (api : API σ) (name : String) (value : Bool)
    (w : World σ) (pp : Policy) (h : (api.GetPolicyByName name w.remote).1 = (some pp, none))
    (he : pp.Enabled = value) :
    SetPolicyEnabledField api name value w =
      (Outcome.ret none,
        { remote := (api.GetPolicyByName name w.remote).2
          trace := w.trace ++ [Call.GetPolicyByName name] }) := by
  simp [SetPolicyEnabledField, GetPolicyByName, apiGetPolicyByName, h, he]

theorem SetPolicyEnabledField_of_differs (api : API σ) (name : String) (value : Bool)
    (w : World σ) (pp : Policy) (h : (api.GetPolicyByName name w.remote).1 = (some pp, none))
    (he : pp.Enabled ≠ value) :
    SetPolicyEnabledField api name value w =
      (Outcome.ret (api.UpdatePolicy { Id := pp.Id, Enabled := value }
          (api.GetPolicyByName name w.remote).2).1,
        { remote := (api.UpdatePolicy { Id := pp.Id, Enabled := value }
            (api.GetPolicyByName name w.remote).2).2
          trace := w.trace ++
            [Call.GetPolicyByName name, Call.UpdatePolicy { Id := pp.Id, Enabled := value }] }) := by
  simp [SetPolicyEnabledField, GetPolicyByName, apiGetPolicyByName, apiUpdatePolicy, h, he]

/-- C4: when the policy read reports the policy as absent (a nil policy and a
nil error), `SetPolicyEnabledField`, and so `EnablePolicy` and `DisablePolicy`,
return success; the read is the only call they make, so no update is issued. -/
theorem SetPolicyEnabledField_absent (api : API σ) (name : String) (value : Bool)
    (w : World σ) (h : (api.GetPolicyByName name w.remote).1 = (none, none)) :
    SetPolicyEnabledField api name value w =
      (Outcome.ret none,
        { remote := (api.GetPolicyByName name w.remote).2
          trace := w.trace ++ [Call.GetPolicyByName name] }) ∧
    EnablePolicy api name w =
      (Outcome.ret none,
        { remote := (api.GetPolicyByName name w.remote).2
          trace := w.trace ++ [Call.GetPolicyByName name] }) ∧
    DisablePolicy api name w =
      (Outcome.ret none,
        { remote := (api.GetPolicyByName name w.remote).2
          trace := w.trace ++ [Call.GetPolicyByName name] }) ∧
    updateCalls (SetPolicyEnabledField api name value w).2.trace = updateCalls w.trace := by
  refine ⟨SetPolicyEnabledField_of_absent api name value w h,
    SetPolicyEnabledField_of_absent api name true w h,
    SetPolicyEnabledField_of_absent api name false w h, ?_⟩
  rw [SetPolicyEnabledField_of_absent api name value w h]
  simp [updateCalls]

/-- C5: when the read returns a policy whose enabled flag differs from the
desired value, `SetPolicyEnabledField` makes exactly one further call, an
update whose payload has the identity of the policy read, the desired flag and
every other field at its zero value, and returns what the update returns; when
the flag already has the desired value the read is the only call and the result
is success. -/
theorem SetPolicyEnabledField_update (api : API σ) (name : String) (value : Bool)
    (w : World σ) (pp : Policy)
    (h : (api.GetPolicyByName name w.remote).1 = (some pp, none)) :
    (pp.Enabled ≠ value →
      SetPolicyEnabledField api name value w =
        (Outcome.ret (api.UpdatePolicy { Id := pp.Id, Enabled := value }
            (api.GetPolicyByName name w.remote).2).1,
          { remote := (api.UpdatePolicy { Id := pp.Id, Enabled := value }
              (api.GetPolicyByName name w.remote).2).2
            trace := w.trace ++
              [Call.GetPolicyByName name,
               Call.UpdatePolicy { Id := pp.Id, Enabled := value }] }) ∧
      ({ Id := pp.Id, Enabled := value } : Policy) =
        { Action := "", Id := pp.Id, Name := "", Enabled := value, TargetPath := "",
          SourcePath := "", TargetHost := "", JobDelay := 0, LastJobState := "" } ∧
      updateCalls (SetPolicyEnabledField api name value w).2.trace = updateCalls w.trace + 1) ∧
    (pp.Enabled = value →
      SetPolicyEnabledField api name value w =
        (Outcome.ret none,
          { remote := (api.GetPolicyByName name w.remote).2
            trace := w.trace ++ [Call.GetPolicyByName name] }) ∧
      updateCalls (SetPolicyEnabledField api name value w).2.trace = updateCalls w.trace) := by
  constructor
  · intro he
    refine ⟨SetPolicyEnabledField_of_differs api name value w pp h he, rfl, ?_⟩
    rw [SetPolicyEnabledField_of_differs api name value w pp h he]
    simp [updateCalls]
  · intro he
    refine ⟨SetPolicyEnabledField_of_same api name value w pp h he, ?_⟩
    rw [SetPolicyEnabledField_of_same api name value w pp h he]
    simp [updateCalls]

theorem SetPolicyEnabledField_absent_witness :
    ((storeAPI none).GetPolicyByName "p" ({ remote := {}, trace := [] } : World Store).remote).1
      = (none, none) ∧
    SetPolicyEnabledField (storeAPI none) "p" true { remote := {}, trace := [] }
      = (Outcome.ret none, { remote := {}, trace := [Call.GetPolicyByName "p"] }) :=
  ⟨by decide,
    (SetPolicyEnabledField_absent (storeAPI none) "p" true { remote := {}, trace := [] }
      (by decide)).1⟩

theorem SetPolicyEnabledField_update_witness :
    ((storeAPI none).GetPolicyByName "p"
        ({ remote := { policies := [{ Id := "p", Name := "n", JobDelay := 40 }] }
           trace := [] } : World Store).remote).1
      = (some { Id := "p", Name := "n", JobDelay := 40 }, none) ∧
    SetPolicyEnabledField (storeAPI none) "p" true
        { remote := { policies := [{ Id := "p", Name := "n", JobDelay := 40 }] }, trace := [] }
      = (Outcome.ret none,
          { remote := { policies := [{ Id := "p", Name := "n", Enabled := true, JobDelay := 40 }] }
            trace := [Call.GetPolicyByName "p",
              Call.UpdatePolicy { Id := "p", Enabled := true }] }) ∧
    SetPolicyEnabledField (storeAPI none) "p" false
        { remote := { policies := [{ Id := "p", Name := "n", JobDelay := 40 }] }, trace := [] }
      = (Outcome.ret none,
          { remote := { policies := [{ Id := "p", Name := "n", JobDelay := 40 }] }
            trace := [Call.GetPolicyByName "p"] }) :=
  ⟨by decide,
    ((SetPolicyEnabledField_update (storeAPI none) "p" true
      { remote := { policies := [{ Id := "p", Name := "n", JobDelay := 40 }] }, trace := [] }
      { Id := "p", Name := "n", JobDelay := 40 } (by decide)).1 (by decide)).1,
    ((SetPolicyEnabledField_update (storeAPI none) "p" false
      { remote := { policies := [{ Id := "p", Name := "n", JobDelay := 40 }] }, trace := [] }
      { Id := "p", Name := "n", JobDelay := 40 } (by decide)).2 (by decide)).1⟩

/-! ## Calling the setter twice -/

theorem lookup_update (s : Store) (name : String) (pp : Policy) (v : Bool)
    (h : s.lookup name = some pp) :
    (s.update { Id := pp.Id, Enabled := v }).lookup name = some { pp with Enabled := v } := by
  unfold Store.lookup Store.update at *
  simp only
  generalize s.policies = l at h
  induction l with
  | nil => simp at h
  | cons q qs ih =>
    rw [List.find?_cons] at h
    rw [List.map_cons, List.find?_cons]
    by_cases hq : (q.Id == name) = true
    · rw [hq] at h
      simp only [Option.some.injEq] at h
      subst h
      simp [hq]
    · simp only [Bool.not_eq_true] at hq
      rw [hq] at h
      have hq2 : ((if q.Id = pp.Id then { q with Enabled := v } else q).Id == name) = false := by
        split <;> simpa using hq
      rw [hq2]
      exact ih h

theorem storeAPI_storesEnabledFlag : StoresEnabledFlag (storeAPI none) Store.lookup := by
  refine ⟨?_, ?_, ?_⟩
  · intro name s
    rfl
  · intro name s
    rfl
  · intro name s pp v hs hu
    refine ⟨{ pp with Enabled := v }, ?_, rfl⟩
    cases hue : s.updateErr with
    | some e => simp [storeAPI, hue] at hu
    | none =>
      have : ((storeAPI none).UpdatePolicy { Id := pp.Id, Enabled := v } s).2
          = s.update { Id := pp.Id, Enabled := v } := by
        simp [storeAPI, hue]
      rw [this]
      exact lookup_update s name pp v hs

/-- C3, as amended: over a remote array whose reads return the stored policy
and whose successful updates store the enabled flag, each call of
`SetPolicyEnabledField` issues at most one update, and whenever the first of
two calls in a row succeeded, the second call issues no update and returns
success, so that the two calls together issue at most one update. -/
theorem SetPolicyEnabledField_twice {σ : Type} (api : API σ)
    (stored : σ → String → Option Policy) (hlaw : StoresEnabledFlag api stored)
    (name : String) (v : Bool) (w : World σ) :
    updateCalls (SetPolicyEnabledField api name v w).2.trace ≤ updateCalls w.trace + 1 ∧
    updateCalls (SetPolicyEnabledField api name v (SetPolicyEnabledField api name v w).2).2.trace
      ≤ updateCalls (SetPolicyEnabledField api name v w).2.trace + 1 ∧
    ((SetPolicyEnabledField api name v w).1 = Outcome.ret none →
      (SetPolicyEnabledField api name v (SetPolicyEnabledField api name v w).2).1
        = Outcome.ret none ∧
      updateCalls (SetPolicyEnabledField api name v (SetPolicyEnabledField api name v w).2).2.trace
        = updateCalls (SetPolicyEnabledField api name v w).2.trace ∧
      updateCalls (SetPolicyEnabledField api name v (SetPolicyEnabledField api name v w).2).2.trace
        ≤ updateCalls w.trace + 1) := by
  have step : ∀ w0 : World σ,
      updateCalls (SetPolicyEnabledField api name v w0).2.trace ≤ updateCalls w0.trace + 1 := by
    intro w0
    have hr := hlaw.read_result name w0.remote
    cases hs : stored w0.remote name with
    | none =>
      rw [hs] at hr
      rw [SetPolicyEnabledField_of_absent api name v w0 hr]
      simp [updateCalls]
    | some pp =>
      rw [hs] at hr
      by_cases he : pp.Enabled = v
      · rw [SetPolicyEnabledField_of_same api name v w0 pp hr he]
        simp [updateCalls]
      · rw [SetPolicyEnabledField_of_differs api name v w0 pp hr he]
        simp [updateCalls]
  have noop : ∀ w0 : World σ,
      (stored w0.remote name = none ∨ ∃ pp, stored w0.remote name = some pp ∧ pp.Enabled = v) →
      (SetPolicyEnabledField api name v w0).1 = Outcome.ret none ∧
      updateCalls (SetPolicyEnabledField api name v w0).2.trace = updateCalls w0.trace := by
    intro w0 h0
    have hr := hlaw.read_result name w0.remote
    rcases h0 with h0 | ⟨pp, h0, he⟩
    · rw [h0] at hr
      rw [SetPolicyEnabledField_of_absent api name v w0 hr]
      simp [updateCalls]
    · rw [h0] at hr
      rw [SetPolicyEnabledField_of_same api name v w0 pp hr he]
      simp [updateCalls]
  refine ⟨step w, step _, ?_⟩
  intro h1
  have hconv : stored (SetPolicyEnabledField api name v w).2.remote name = none ∨
      ∃ pp, stored (SetPolicyEnabledField api name v w).2.remote name = some pp ∧
        pp.Enabled = v := by
    have hr := hlaw.read_result name w.remote
    have hk := hlaw.read_stored name w.remote
    cases hs : stored w.remote name with
    | none =>
      rw [hs] at hr
      rw [SetPolicyEnabledField_of_absent api name v w hr]
      left
      simp only
      rw [hk, hs]
    | some pp =>
      rw [hs] at hr
      by_cases he : pp.Enabled = v
      · rw [SetPolicyEnabledField_of_same api name v w pp hr he]
        right
        exact ⟨pp, by simp only; rw [hk, hs], he⟩
      · rw [SetPolicyEnabledField_of_differs api name v w pp hr he] at h1 ⊢
        right
        simp only [Outcome.ret.injEq] at h1
        have hs1 : stored (api.GetPolicyByName name w.remote).2 name = some pp := by
          rw [hk, hs]
        exact hlaw.update_stored name _ pp v hs1 h1
  obtain ⟨h2, h3⟩ := noop _ hconv
  exact ⟨h2, h3, by rw [h3]; exact step w⟩

theorem SetPolicyEnabledField_twice_witness :
    StoresEnabledFlag (storeAPI none) Store.lookup ∧
    (SetPolicyEnabledField (storeAPI none) "p" true
      { remote := { policies := [{ Id := "p" }] }, trace := [] }).1 = Outcome.ret none ∧
    (SetPolicyEnabledField (storeAPI none) "p" true
      (SetPolicyEnabledField (storeAPI none) "p" true
        { remote := { policies := [{ Id := "p" }] }, trace := [] }).2).1 = Outcome.ret none :=
  ⟨storeAPI_storesEnabledFlag, by decide,
    ((SetPolicyEnabledField_twice (storeAPI none) Store.lookup storeAPI_storesEnabledFlag "p" true
      { remote := { policies := [{ Id := "p" }] }, trace := [] }).2.2 (by decide)).1⟩

/-- C3, the claim as stated fails: on a remote array whose reads return the
stored policy and whose successful updates store the flag, but which rejects
updates, two calls in a row issue two update calls. -/
theorem SetPolicyEnabledField_twice_two_updates :
    StoresEnabledFlag (storeAPI none) Store.lookup ∧
    updateCalls (SetPolicyEnabledField (storeAPI none) "p" true
      (SetPolicyEnabledField (storeAPI none) "p" true
        { remote := { policies := [{ Id := "p" }], updateErr := some (Err.remote "rejected") }
          trace := [] }).2).2.trace = 2 ∧
    ¬ updateCalls (SetPolicyEnabledField (storeAPI none) "p" true
      (SetPolicyEnabledField (storeAPI none) "p" true
        { remote := { policies := [{ Id := "p" }], updateErr := some (Err.remote "rejected") }
          trace := [] }).2).2.trace ≤ 1 :=
  ⟨storeAPI_storesEnabledFlag, by decide, by decide⟩

end Setter

/-! ## The target-policy operations: theorems -/

section Target
variable {σ : Type}

theorem AllowWrites_eq (api : API σ) (poll : Poller σ) (name : String) (w : World σ) :
    AllowWrites api poll name w
      = reconcileTarget api poll name WRITES_ENABLED apiv11.ALLOW_WRITE w := rfl

theorem DisallowWrites_eq (api : API σ) (poll : Poller σ) (name : String) (w : World σ) :
    DisallowWrites api poll name w
      = reconcileTarget api poll name WRITES_DISABLED apiv11.ALLOW_WRITE_REVERT w := rfl

theorem ResyncPrep_eq (api : API σ) (poll : Poller σ) (name : String) (w : World σ) :
    ResyncPrep api poll name w
      = reconcileTarget api poll name RESYNC_POLICY_CREATED apiv11.RESYNC_PREP w := rfl

theorem outcome_match_id (x : Outcome × World σ) :
    (match x with
      | (Outcome.panic, w3) => (Outcome.panic, w3)
      | (Outcome.ret (some err), w3) => (Outcome.ret (some err), w3)
      | (Outcome.ret none, w3) => (Outcome.ret none, w3)) = x := by
  rcases x with ⟨o, w3⟩
  cases o with
  | panic => rfl
  | ret err => cases err <;> rfl

theorem WaitForTargetPolicyCondition_eq (api : API σ) (poll : Poller σ) (name : String)
    (condition : String) (w : World σ) :
    WaitForTargetPolicyCondition api poll name condition w
      = poll defaultPoll defaultTimeout (targetPolicyProbe api name condition) w := by
  unfold WaitForTargetPolicyCondition
  exact outcome_match_id _

theorem afterTargetRead_trace (api : API σ) (name : String) (w : World σ) :
    (afterTargetRead api name w).trace = w.trace ++ [Call.GetTargetPolicyByName name] := rfl

theorem afterDispatch_trace (api : API σ) (name action : String) (w : World σ) :
    (afterDispatch api name action w).trace
      = w.trace ++ [Call.GetTargetPolicyByName name,
          Call.StartSyncIQJob { Id := name, Action := action }] := by
  simp [afterDispatch, afterTargetRead, RunActionForPolicy, apiStartSyncIQJob,
    GetTargetPolicyByName, apiGetTargetPolicyByName]

theorem reconcileTarget_of_error (api : API σ) (poll : Poller σ) (name terminal action : String)
    (w : World σ) (v : Option TargetPolicy) (e : Err)
    (h : (GetTargetPolicyByName api name w).1 = (v, some e)) :
    reconcileTarget api poll name terminal action w
      = (Outcome.ret (some e), afterTargetRead api name w) := by
  unfold reconcileTarget afterTargetRead
  rcases hr : GetTargetPolicyByName api name w with ⟨⟨v1, e1⟩, w1⟩
  rw [hr] at h
  simp only [Prod.mk.injEq] at h
  obtain ⟨-, rfl⟩ := h
  cases v1 <;> rfl

theorem reconcileTarget_of_reached (api : API σ) (poll : Poller σ)
    (name terminal action : String) (w : World σ) (tp : TargetPolicy)
    (h : (GetTargetPolicyByName api name w).1 = (some tp, none))
    (ht : tp.FailoverFailbackState = terminal) :
    reconcileTarget api poll name terminal action w
      = (Outcome.ret none, afterTargetRead api name w) := by
  unfold reconcileTarget afterTargetRead
  rcases hr : GetTargetPolicyByName api name w with ⟨⟨v1, e1⟩, w1⟩
  rw [hr] at h
  simp only [Prod.mk.injEq] at h
  obtain ⟨rfl, rfl⟩ := h
  simp [ht]

theorem reconcileTarget_of_dispatch_error (api : API σ) (poll : Poller σ)
    (name terminal action : String) (w : World σ) (tp : TargetPolicy)
    (h : (GetTargetPolicyByName api name w).1 = (some tp, none))
    (ht : tp.FailoverFailbackState ≠ terminal) (v : Option JobRequest) (e : Err)
    (hd : (RunActionForPolicy api name action (afterTargetRead api name w)).1 = (v, some e)) :
    reconcileTarget api poll name terminal action w
      = (Outcome.ret (some e), afterDispatch api name action w) := by
  unfold reconcileTarget afterDispatch
  unfold afterTargetRead at *
  rcases hr : GetTargetPolicyByName api name w with ⟨⟨v1, e1⟩, w1⟩
  rw [hr] at h hd
  simp only [Prod.mk.injEq] at h
  obtain ⟨rfl, rfl⟩ := h
  simp only [ht, if_false]
  rcases hr2 : RunActionForPolicy api name action w1 with ⟨⟨v2, e2⟩, w2⟩
  rw [hr2] at hd
  simp only [Prod.mk.injEq] at hd
  obtain ⟨-, rfl⟩ := hd
  cases v2 <;> rfl

theorem reconcileTarget_of_dispatched (api : API σ) (poll : Poller σ)
    (name terminal action : String) (w : World σ) (tp : TargetPolicy)
    (h : (GetTargetPolicyByName api name w).1 = (some tp, none))
    (ht : tp.FailoverFailbackState ≠ terminal) (v : Option JobRequest)
    (hd : (RunActionForPolicy api name action (afterTargetRead api name w)).1 = (v, none)) :
    reconcileTarget api poll name terminal action w
      = poll defaultPoll defaultTimeout (targetPolicyProbe api name terminal)
          (afterDispatch api name action w) := by
  unfold reconcileTarget afterDispatch
  unfold afterTargetRead at *
  rcases hr : GetTargetPolicyByName api name w with ⟨⟨v1, e1⟩, w1⟩
  rw [hr] at h hd
  simp only [Prod.mk.injEq] at h
  obtain ⟨rfl, rfl⟩ := h
  simp only [ht, if_false]
  rcases hr2 : RunActionForPolicy api name action w1 with ⟨⟨v2, e2⟩, w2⟩
  rw [hr2] at hd
  simp only [Prod.mk.injEq] at hd
  obtain ⟨-, rfl⟩ := hd
  cases v2 <;>
  · simp only [WaitForTargetPolicyCondition_eq]
    exact outcome_match_id _

theorem targetPolicyProbe_world (api : API σ) (name condition : String) (w : World σ) :
    (targetPolicyProbe api name condition w).2 = afterTargetRead api name w := by
  unfold targetPolicyProbe afterTargetRead
  rcases GetTargetPolicyByName api name w with ⟨⟨v1, e1⟩, w1⟩
  cases v1 with
  | none => cases e1 <;> rfl
  | some tp =>
    cases e1 with
    | some e => rfl
    | none =>
      simp only
      split <;> rfl

theorem targetPolicyProbe_of_error (api : API σ) (name condition : String) (w : World σ)
    (v : Option TargetPolicy) (e : Err)
    (h : (GetTargetPolicyByName api name w).1 = (v, some e)) :
    (targetPolicyProbe api name condition w).1 = ProbeResult.ret false (some e) := by
  unfold targetPolicyProbe
  rcases hr : GetTargetPolicyByName api name w with ⟨⟨v1, e1⟩, w1⟩
  rw [hr] at h
  simp only [Prod.mk.injEq] at h
  obtain ⟨-, rfl⟩ := h
  cases v1 <;> rfl

theorem targetPolicyProbe_of_some (api : API σ) (name condition : String) (w : World σ)
    (tp : TargetPolicy) (h : (GetTargetPolicyByName api name w).1 = (some tp, none)) :
    (targetPolicyProbe api name condition w).1
      = ProbeResult.ret (decide (tp.FailoverFailbackState = condition)) none := by
  unfold targetPolicyProbe
  rcases hr : GetTargetPolicyByName api name w with ⟨⟨v1, e1⟩, w1⟩
  rw [hr] at h
  simp only [Prod.mk.injEq] at h
  obtain ⟨rfl, rfl⟩ := h
  by_cases ht : tp.FailoverFailbackState = condition <;> simp [ht]

theorem targetPolicyProbe_of_nil (api : API σ) (name condition : String) (w : World σ)
    (h : (GetTargetPolicyByName api name w).1 = (none, none)) :
    (targetPolicyProbe api name condition w).1 = ProbeResult.panic := by
  unfold targetPolicyProbe
  rcases hr : GetTargetPolicyByName api name w with ⟨⟨v1, e1⟩, w1⟩
  rw [hr] at h
  simp only [Prod.mk.injEq] at h
  obtain ⟨rfl, rfl⟩ := h
  rfl

theorem targetPolicyProbe_met_iff (api : API σ) (name condition : String) (w : World σ) :
    (targetPolicyProbe api name condition w).1 = ProbeResult.ret true none ↔
      ∃ tp, (GetTargetPolicyByName api name w).1 = (some tp, none) ∧
        tp.FailoverFailbackState = condition := by
  rcases hr : (GetTargetPolicyByName api name w).1 with ⟨v1, e1⟩
  cases e1 with
  | some e =>
    rw [targetPolicyProbe_of_error api name condition w v1 e hr]
    simp
  | none =>
    cases v1 with
    | none =>
      rw [targetPolicyProbe_of_nil api name condition w hr]
      simp
    | some tp =>
      rw [targetPolicyProbe_of_some api name condition w tp hr]
      simp

theorem pollLoop_jobCalls (probe : Probe σ)
    (hp : ∀ w, jobCalls (probe w).2.trace = jobCalls w.trace) (n : Nat) (w : World σ) :
    jobCalls (pollLoop probe n w).2.trace = jobCalls w.trace := by
  induction n generalizing w with
  | zero => rfl
  | succ n ih =>
    have h := hp w
    unfold pollLoop
    rcases hr : probe w with ⟨r, w1⟩
    rw [hr] at h
    simp only at h
    cases r with
    | panic => exact h
    | ret done err =>
      cases err with
      | some e => cases done <;> exact h
      | none =>
        cases done with
        | true => exact h
        | false =>
          simp only
          rw [ih w1]
          exact h

theorem targetPolicyProbe_jobCalls (api : API σ) (name condition : String) (w : World σ) :
    jobCalls (targetPolicyProbe api name condition w).2.trace = jobCalls w.trace := by
  rw [targetPolicyProbe_world, afterTargetRead_trace, jobCalls_append]
  simp [jobCalls]

theorem reconcileTarget_jobCalls (api : API σ) (name terminal action : String) (w : World σ)
    (tp : TargetPolicy) (h : (GetTargetPolicyByName api name w).1 = (some tp, none))
    (ht : tp.FailoverFailbackState ≠ terminal) (n : Nat) :
    jobCalls (reconcileTarget api (fun _ _ probe => pollLoop probe n) name terminal action w).2.trace
      = jobCalls w.trace + 1 := by
  have htr : jobCalls (afterDispatch api name action w).trace = jobCalls w.trace + 1 := by
    rw [afterDispatch_trace, jobCalls_append]
    simp [jobCalls]
  rcases hd : (RunActionForPolicy api name action (afterTargetRead api name w)).1 with ⟨v, e⟩
  cases e with
  | some e =>
    rw [reconcileTarget_of_dispatch_error api _ name terminal action w tp h ht v e hd]
    exact htr
  | none =>
    rw [reconcileTarget_of_dispatched api _ name terminal action w tp h ht v hd]
    rw [pollLoop_jobCalls _ (targetPolicyProbe_jobCalls api name terminal)]
    exact htr

/-- C6: when the target-policy read succeeds and the state it reports is
already the terminal state of the operation, `AllowWrites`, `DisallowWrites`
and `ResyncPrep` return success whatever the poller is, and the read is the
only call in the trace: no job is dispatched and the poller is not entered. -/
theorem targetOps_already_reached (api : API σ) (poll : Poller σ) (name : String)
    (w : World σ) (tp : TargetPolicy)
    (h : (GetTargetPolicyByName api name w).1 = (some tp, none)) :
    (afterTargetRead api name w).trace = w.trace ++ [Call.GetTargetPolicyByName name] ∧
    (tp.FailoverFailbackState = "writes_enabled" →
      AllowWrites api poll name w = (Outcome.ret none, afterTargetRead api name w)) ∧
    (tp.FailoverFailbackState = "writes_disabled" →
      DisallowWrites api poll name w = (Outcome.ret none, afterTargetRead api name w)) ∧
    (tp.FailoverFailbackState = "resync_policy_created" →
      ResyncPrep api poll name w = (Outcome.ret none, afterTargetRead api name w)) := by
  refine ⟨rfl, ?_, ?_, ?_⟩
  · intro ht
    rw [AllowWrites_eq]
    exact reconcileTarget_of_reached api poll name _ _ w tp h ht
  · intro ht
    rw [DisallowWrites_eq]
    exact reconcileTarget_of_reached api poll name _ _ w tp h ht
  · intro ht
    rw [ResyncPrep_eq]
    exact reconcileTarget_of_reached api poll name _ _ w tp h ht

/-- C7: when the target-policy read succeeds with a state other than the
terminal state, `AllowWrites`, `DisallowWrites` and `ResyncPrep` submit, right
after the read, the job request that `RunActionForPolicy` builds, with the
policy name as identity and the action "allow_write", "allow_write_revert" or
"resync_prep"; when the submission succeeds they return what the poller returns
for the probe of the terminal state, started in the world whose trace is the
read followed by that one request; with a poller that makes any number of
attempts the whole run contains exactly one job request. The probe makes one
target-policy read and nothing else; it reports the condition met exactly when
that read succeeds with the terminal state, not met for any other state, and
the error of the read when the read fails. -/
theorem targetOps_dispatch (api : API σ) (poll : Poller σ) (name : String) (w : World σ)
    (tp : TargetPolicy) (h : (GetTargetPolicyByName api name w).1 = (some tp, none)) :
    (tp.FailoverFailbackState ≠ "writes_enabled" →
      (afterDispatch api name "allow_write" w).trace
        = w.trace ++ [Call.GetTargetPolicyByName name,
            Call.StartSyncIQJob { Id := name, Action := "allow_write" }] ∧
      (∀ v, (RunActionForPolicy api name "allow_write" (afterTargetRead api name w)).1
          = (v, none) →
        AllowWrites api poll name w
          = poll defaultPoll defaultTimeout (targetPolicyProbe api name "writes_enabled")
              (afterDispatch api name "allow_write" w)) ∧
      (∀ n, jobCalls (AllowWrites api (fun _ _ probe => pollLoop probe n) name w).2.trace
          = jobCalls w.trace + 1)) ∧
    (tp.FailoverFailbackState ≠ "writes_disabled" →
      (afterDispatch api name "allow_write_revert" w).trace
        = w.trace ++ [Call.GetTargetPolicyByName name,
            Call.StartSyncIQJob { Id := name, Action := "allow_write_revert" }] ∧
      (∀ v, (RunActionForPolicy api name "allow_write_revert" (afterTargetRead api name w)).1
          = (v, none) →
        DisallowWrites api poll name w
          = poll defaultPoll defaultTimeout (targetPolicyProbe api name "writes_disabled")
              (afterDispatch api name "allow_write_revert" w)) ∧
      (∀ n, jobCalls (DisallowWrites api (fun _ _ probe => pollLoop probe n) name w).2.trace
          = jobCalls w.trace + 1)) ∧
    (tp.FailoverFailbackState ≠ "resync_policy_created" →
      (afterDispatch api name "resync_prep" w).trace
        = w.trace ++ [Call.GetTargetPolicyByName name,
            Call.StartSyncIQJob { Id := name, Action := "resync_prep" }] ∧
      (∀ v, (RunActionForPolicy api name "resync_prep" (afterTargetRead api name w)).1
          = (v, none) →
        ResyncPrep api poll name w
          = poll defaultPoll defaultTimeout (targetPolicyProbe api name "resync_policy_created")
              (afterDispatch api name "resync_prep" w)) ∧
      (∀ n, jobCalls (ResyncPrep api (fun _ _ probe => pollLoop probe n) name w).2.trace
          = jobCalls w.trace + 1)) ∧
    (∀ (action : String) (w1 : World σ),
      RunActionForPolicy api name action w1
        = StartSyncIQJob api { Id := name, Action := action } w1) ∧
    (∀ (condition : String) (w1 : World σ),
      (targetPolicyProbe api name condition w1).2.trace
        = w1.trace ++ [Call.GetTargetPolicyByName name] ∧
      ((targetPolicyProbe api name condition w1).1 = ProbeResult.ret true none ↔
        ∃ tp1, (GetTargetPolicyByName api name w1).1 = (some tp1, none) ∧
          tp1.FailoverFailbackState = condition) ∧
      (∀ tp1, (GetTargetPolicyByName api name w1).1 = (some tp1, none) →
        tp1.FailoverFailbackState ≠ condition →
        (targetPolicyProbe api name condition w1).1 = ProbeResult.ret false none) ∧
      (∀ v e, (GetTargetPolicyByName api name w1).1 = (v, some e) →
        (targetPolicyProbe api name condition w1).1 = ProbeResult.ret false (some e))) := by
  refine ⟨?_, ?_, ?_, ?_, ?_⟩
  · intro ht
    refine ⟨afterDispatch_trace api name _ w, ?_, ?_⟩
    · intro v hd
      rw [AllowWrites_eq]
      exact reconcileTarget_of_dispatched api poll name _ _ w tp h ht v hd
    · intro n
      rw [AllowWrites_eq]
      exact reconcileTarget_jobCalls api name _ _ w tp h ht n
  · intro ht
    refine ⟨afterDispatch_trace api name _ w, ?_, ?_⟩
    · intro v hd
      rw [DisallowWrites_eq]
      exact reconcileTarget_of_dispatched api poll name _ _ w tp h ht v hd
    · intro n
      rw [DisallowWrites_eq]
      exact reconcileTarget_jobCalls api name _ _ w tp h ht n
  · intro ht
    refine ⟨afterDispatch_trace api name _ w, ?_, ?_⟩
    · intro v hd
      rw [ResyncPrep_eq]
      exact reconcileTarget_of_dispatched api poll name _ _ w tp h ht v hd
    · intro n
      rw [ResyncPrep_eq]
      exact reconcileTarget_jobCalls api name _ _ w tp h ht n
  · intro action w1
    rfl
  · intro condition w1
    refine ⟨?_, targetPolicyProbe_met_iff api name condition w1, ?_, ?_⟩
    · rw [targetPolicyProbe_world, afterTargetRead_trace]
    · intro tp1 h1 hne
      rw [targetPolicyProbe_of_some api name condition w1 tp1 h1]
      simp [hne]
    · intro v e h1
      exact targetPolicyProbe_of_error api name condition w1 v e h1

end Target

/-! ## `SyncPolicy`: theorems -/

section Sync
variable {σ : Type}

theorem FilterReports_length_eq_zero_iff (values : List Report) (f : Report → Bool) :
    (FilterReports values f).length = 0 ↔ ∀ r ∈ values, f r = false := by
  rw [FilterReports_eq, List.length_eq_zero, List.filter_eq_nil_iff]
  simp

theorem afterFetch_trace (api : API σ) (name : String) (w : World σ) :
    (afterFetch api name w).trace
      = w.trace ++ [Call.GetPolicyByName name, Call.GetReportsByPolicyName name 5] := by
  simp [afterFetch, afterPolicyRead, GetReportsByPolicyName, apiGetReportsByPolicyName,
    GetPolicyByName, apiGetPolicyByName]

theorem afterSyncDispatch_trace (api : API σ) (name : String) (w : World σ) :
    (afterSyncDispatch api name w).trace
      = w.trace ++ [Call.GetPolicyByName name, Call.GetReportsByPolicyName name 5,
          Call.StartSyncIQJob { Id := name, Action := "" }] := by
  simp [afterSyncDispatch, afterFetch, afterPolicyRead, GetReportsByPolicyName,
    apiGetReportsByPolicyName, GetPolicyByName, apiGetPolicyByName, StartSyncIQJob,
    apiStartSyncIQJob]

theorem SyncPolicy_of_read_error (api : API σ) (poll : Poller σ) (name : String) (w : World σ)
    (v : Option Policy) (e : Err) (h : (GetPolicyByName api name w).1 = (v, some e)) :
    SyncPolicy api poll name w = (Outcome.ret (some e), afterPolicyRead api name w) := by
  unfold SyncPolicy afterPolicyRead
  rcases hr : GetPolicyByName api name w with ⟨⟨v1, e1⟩, w1⟩
  rw [hr] at h
  simp only [Prod.mk.injEq] at h
  obtain ⟨-, rfl⟩ := h
  cases v1 <;> rfl

theorem SyncPolicy_of_fetch_error (api : API σ) (poll : Poller σ) (name : String) (w : World σ)
    (p : Policy) (h : (GetPolicyByName api name w).1 = (some p, none))
    (v : Option Reports) (e : Err)
    (hf : (GetReportsByPolicyName api name 5 (afterPolicyRead api name w)).1 = (v, some e)) :
    SyncPolicy api poll name w = (Outcome.ret (some e), afterFetch api name w) := by
  unfold SyncPolicy afterFetch
  unfold afterPolicyRead at *
  rcases hr : GetPolicyByName api name w with ⟨⟨v1, e1⟩, w1⟩
  rw [hr] at h hf
  simp only [Prod.mk.injEq] at h
  obtain ⟨rfl, rfl⟩ := h
  simp only
  rcases hr2 : GetReportsByPolicyName api name 5 w1 with ⟨⟨v2, e2⟩, w2⟩
  rw [hr2] at hf
  simp only [Prod.mk.injEq] at hf
  obtain ⟨-, rfl⟩ := hf
  cases v2 <;> rfl

theorem SyncPolicy_of_fresh (api : API σ) (poll : Poller σ) (name : String) (w : World σ)
    (p : Policy) (h : (GetPolicyByName api name w).1 = (some p, none)) (reports : Reports)
    (hf : (GetReportsByPolicyName api name 5 (afterPolicyRead api name w)).1
      = (some reports, none))
    (hfresh : ∃ r ∈ reports.Reports,
      reportFilter p.JobDelay (api.Now (afterFetch api name w).remote) r = true) :
    SyncPolicy api poll name w = (Outcome.ret none, afterFetch api name w) := by
  have hlen : ¬ (FilterReports reports.Reports
      (reportFilter p.JobDelay (api.Now (afterFetch api name w).remote))).length = 0 := by
    rw [FilterReports_length_eq_zero_iff]
    intro hall
    obtain ⟨r, hr, ht⟩ := hfresh
    rw [hall r hr] at ht
    exact absurd ht (by decide)
  unfold SyncPolicy
  unfold afterFetch at *
  unfold afterPolicyRead at *
  rcases hr : GetPolicyByName api name w with ⟨⟨v1, e1⟩, w1⟩
  rw [hr] at h hf hlen
  simp only [Prod.mk.injEq] at h
  obtain ⟨rfl, rfl⟩ := h
  simp only at hf hlen ⊢
  rcases hr2 : GetReportsByPolicyName api name 5 w1 with ⟨⟨v2, e2⟩, w2⟩
  rw [hr2] at hf hlen
  simp only [Prod.mk.injEq] at hf
  obtain ⟨rfl, rfl⟩ := hf
  simp only at hlen ⊢
  rw [if_neg hlen]

theorem SyncPolicy_of_stale_error (api : API σ) (poll : Poller σ) (name : String) (w : World σ)
    (p : Policy) (h : (GetPolicyByName api name w).1 = (some p, none)) (reports : Reports)
    (hf : (GetReportsByPolicyName api name 5 (afterPolicyRead api name w)).1
      = (some reports, none))
    (hstale : ∀ r ∈ reports.Reports,
      reportFilter p.JobDelay (api.Now (afterFetch api name w).remote) r = false)
    (v : Option JobRequest) (e : Err)
    (hd : (StartSyncIQJob api { Id := name } (afterFetch api name w)).1 = (v, some e)) :
    SyncPolicy api poll name w = (Outcome.ret (some e), afterSyncDispatch api name w) := by
  have hlen := (FilterReports_length_eq_zero_iff _ _).2 hstale
  unfold SyncPolicy afterSyncDispatch
  unfold afterFetch at *
  unfold afterPolicyRead at *
  rcases hr : GetPolicyByName api name w with ⟨⟨v1, e1⟩, w1⟩
  rw [hr] at h hf hlen hd
  simp only [Prod.mk.injEq] at h
  obtain ⟨rfl, rfl⟩ := h
  simp only at hf hlen hd ⊢
  rcases hr2 : GetReportsByPolicyName api name 5 w1 with ⟨⟨v2, e2⟩, w2⟩
  rw [hr2] at hf hlen hd
  simp only [Prod.mk.injEq] at hf
  obtain ⟨rfl, rfl⟩ := hf
  simp only at hlen hd ⊢
  rw [if_pos hlen]
  rcases hr3 : StartSyncIQJob api { Id := name } w2 with ⟨⟨v3, e3⟩, w3⟩
  rw [hr3] at hd
  simp only [Prod.mk.injEq] at hd
  obtain ⟨-, rfl⟩ := hd
  cases v3 <;> rfl

theorem SyncPolicy_of_stale_dispatched (api : API σ) (poll : Poller σ) (name : String)
    (w : World σ) (p : Policy) (h : (GetPolicyByName api name w).1 = (some p, none))
    (reports : Reports)
    (hf : (GetReportsByPolicyName api name 5 (afterPolicyRead api name w)).1
      = (some reports, none))
    (hstale : ∀ r ∈ reports.Reports,
      reportFilter p.JobDelay (api.Now (afterFetch api name w).remote) r = false)
    (v : Option JobRequest)
    (hd : (StartSyncIQJob api { Id := name } (afterFetch api name w)).1 = (v, none)) :
    SyncPolicy api poll name w
      = poll defaultPoll defaultTimeout (syncProbe api name p.JobDelay)
          (afterSyncDispatch api name w) := by
  have hlen := (FilterReports_length_eq_zero_iff _ _).2 hstale
  unfold SyncPolicy afterSyncDispatch
  unfold afterFetch at *
  unfold afterPolicyRead at *
  rcases hr : GetPolicyByName api name w with ⟨⟨v1, e1⟩, w1⟩
  rw [hr] at h hf hlen hd
  simp only [Prod.mk.injEq] at h
  obtain ⟨rfl, rfl⟩ := h
  simp only at hf hlen hd ⊢
  rcases hr2 : GetReportsByPolicyName api name 5 w1 with ⟨⟨v2, e2⟩, w2⟩
  rw [hr2] at hf hlen hd
  simp only [Prod.mk.injEq] at hf
  obtain ⟨rfl, rfl⟩ := hf
  simp only at hlen hd ⊢
  rw [if_pos hlen]
  rcases hr3 : StartSyncIQJob api { Id := name } w2 with ⟨⟨v3, e3⟩, w3⟩
  rw [hr3] at hd
  simp only [Prod.mk.injEq] at hd
  obtain ⟨-, rfl⟩ := hd
  cases v3 <;> exact outcome_match_id _

theorem syncProbe_world (api : API σ) (name : String) (rpo : Int) (w : World σ) :
    (syncProbe api name rpo w).2 = (GetReportsByPolicyName api name 5 w).2 := by
  unfold syncProbe
  rcases GetReportsByPolicyName api name 5 w with ⟨⟨v1, e1⟩, w1⟩
  cases v1 with
  | none => cases e1 <;> rfl
  | some reports =>
    cases e1 with
    | some e => rfl
    | none =>
      simp only
      split <;> rfl

theorem syncProbe_trace (api : API σ) (name : String) (rpo : Int) (w : World σ) :
    (syncProbe api name rpo w).2.trace
      = w.trace ++ [Call.GetReportsByPolicyName name 5] := by
  rw [syncProbe_world]
  rfl

theorem syncProbe_of_error (api : API σ) (name : String) (rpo : Int) (w : World σ)
    (v : Option Reports) (e : Err)
    (h : (GetReportsByPolicyName api name 5 w).1 = (v, some e)) :
    (syncProbe api name rpo w).1 = ProbeResult.ret false (some e) := by
  unfold syncProbe
  rcases hr : GetReportsByPolicyName api name 5 w with ⟨⟨v1, e1⟩, w1⟩
  rw [hr] at h
  simp only [Prod.mk.injEq] at h
  obtain ⟨-, rfl⟩ := h
  cases v1 <;> rfl

theorem syncProbe_of_nil (api : API σ) (name : String) (rpo : Int) (w : World σ)
    (h : (GetReportsByPolicyName api name 5 w).1 = (none, none)) :
    (syncProbe api name rpo w).1 = ProbeResult.panic := by
  unfold syncProbe
  rcases hr : GetReportsByPolicyName api name 5 w with ⟨⟨v1, e1⟩, w1⟩
  rw [hr] at h
  simp only [Prod.mk.injEq] at h
  obtain ⟨rfl, rfl⟩ := h
  rfl

theorem syncProbe_of_some (api : API σ) (name : String) (rpo : Int) (w : World σ)
    (reports : Reports) (h : (GetReportsByPolicyName api name 5 w).1 = (some reports, none)) :
    (syncProbe api name rpo w).1
      = ProbeResult.ret (reports.Reports.any
          (reportFilter rpo (api.Now (GetReportsByPolicyName api name 5 w).2.remote))) none := by
  unfold syncProbe
  rcases hr : GetReportsByPolicyName api name 5 w with ⟨⟨v1, e1⟩, w1⟩
  rw [hr] at h
  simp only [Prod.mk.injEq] at h
  obtain ⟨rfl, rfl⟩ := h
  simp only
  by_cases hz : (FilterReports reports.Reports (reportFilter rpo (api.Now w1.remote))).length = 0
  · rw [if_pos hz]
    rw [FilterReports_length_eq_zero_iff] at hz
    have : reports.Reports.any (reportFilter rpo (api.Now w1.remote)) = false := by
      rw [List.any_eq_false]
      intro r hr
      simp [hz r hr]
    rw [this]
  · rw [if_neg hz]
    rw [FilterReports_length_eq_zero_iff] at hz
    push_neg at hz
    obtain ⟨r, hr, ht⟩ := hz
    have : reports.Reports.any (reportFilter rpo (api.Now w1.remote)) = true := by
      rw [List.any_eq_true]
      exact ⟨r, hr, by simpa using ht⟩
    rw [this]

theorem syncProbe_jobCalls (api : API σ) (name : String) (rpo : Int) (w : World σ) :
    jobCalls (syncProbe api name rpo w).2.trace = jobCalls w.trace := by
  rw [syncProbe_trace, jobCalls_append]
  simp [jobCalls]

/-- C8, as amended: when the policy read succeeds and at least one of the
reports fetched (the last 5 of the policy) is accepted by the freshness
predicate as `SyncPolicy` computes it, `reportFilter` with the policy's
`JobDelay` at the clock reading after the fetch, `SyncPolicy` returns success
whatever the poller is, and its only calls are the policy read and the report
fetch: no job request is submitted and the poller is not entered. The same
holds when one of the reports has action "sync" and state "finished", an end
time of at most `2 ^ 62` seconds in magnitude that lies less than `2 ^ 24`
seconds before or after the clock reading, and the clock reading minus the end
time is below half the `JobDelay`. -/
theorem SyncPolicy_fresh_noop (api : API σ) (poll : Poller σ) (name : String) (w : World σ)
    (p : Policy) (reports : Reports)
    (h : (GetPolicyByName api name w).1 = (some p, none))
    (hf : (GetReportsByPolicyName api name 5 (afterPolicyRead api name w)).1
      = (some reports, none)) :
    (afterFetch api name w).trace
      = w.trace ++ [Call.GetPolicyByName name, Call.GetReportsByPolicyName name 5] ∧
    ((∃ r ∈ reports.Reports,
        reportFilter p.JobDelay (api.Now (afterFetch api name w).remote) r = true) →
      SyncPolicy api poll name w = (Outcome.ret none, afterFetch api name w) ∧
      jobCalls (SyncPolicy api poll name w).2.trace = jobCalls w.trace) ∧
    ((∃ r ∈ reports.Reports,
        |r.EndTime| ≤ 4611686018427387904 ∧
        |api.Now (afterFetch api name w).remote - r.EndTime * 1000000000|
          < 16777216 * 1000000000 ∧
        r.Policy.Action = "sync" ∧ r.State = "finished" ∧
        ((api.Now (afterFetch api name w).remote : Int) : ℚ) / 1000000000 - (r.EndTime : ℚ)
          < (p.JobDelay : ℚ) / 2) →
      SyncPolicy api poll name w = (Outcome.ret none, afterFetch api name w) ∧
      jobCalls (SyncPolicy api poll name w).2.trace = jobCalls w.trace) := by
  have main : (∃ r ∈ reports.Reports,
        reportFilter p.JobDelay (api.Now (afterFetch api name w).remote) r = true) →
      SyncPolicy api poll name w = (Outcome.ret none, afterFetch api name w) ∧
      jobCalls (SyncPolicy api poll name w).2.trace = jobCalls w.trace := by
    intro hfresh
    have heq := SyncPolicy_of_fresh api poll name w p h reports hf hfresh
    refine ⟨heq, ?_⟩
    rw [heq]
    simp only
    rw [afterFetch_trace, jobCalls_append]
    simp [jobCalls]
  refine ⟨afterFetch_trace api name w, main, ?_⟩
  rintro ⟨r, hr, hE, hD, hc⟩
  exact main ⟨r, hr, (reportFilter_near_iff _ _ r hE hD).2 hc⟩

/-- C8, the claim as stated fails: a finished sync report that ended
16777216.999999999 seconds before now, with half the interval 16777217
seconds, is within that half of now, yet `SyncPolicy` submits a job: the
`float64` value of the elapsed seconds is rounded to 16777217, which is not
below the half. -/
theorem SyncPolicy_rounding_dispatches :
    (GetPolicyByName (storeAPI none) "p" { remote := roundingStore, trace := [] }).1
      = (some { Id := "p", Name := "p", JobDelay := 33554434 }, none) ∧
    (GetReportsByPolicyName (storeAPI none) "p" 5
        (afterPolicyRead (storeAPI none) "p" { remote := roundingStore, trace := [] })).1
      = (some { Reports :=
          [{ Policy := { Action := "sync", Id := "p" }, EndTime := 1683222784,
             State := "finished" }] }, none) ∧
    (storeAPI none).Now
      (afterFetch (storeAPI none) "p" { remote := roundingStore, trace := [] }).remote
      = 1700000000999999999 ∧
    (0 : ℚ) ≤ ((1700000000999999999 : Int) : ℚ) / 1000000000 - ((1683222784 : Int) : ℚ) ∧
    ((1700000000999999999 : Int) : ℚ) / 1000000000 - ((1683222784 : Int) : ℚ)
      < ((33554434 : Int) : ℚ) / 2 ∧
    (SyncPolicy (storeAPI none) PollImmediateWithContext "p"
        { remote := roundingStore, trace := [] }).2.trace
      = [Call.GetPolicyByName "p", Call.GetReportsByPolicyName "p" 5,
          Call.StartSyncIQJob { Id := "p" }, Call.GetReportsByPolicyName "p" 5] := by
  refine ⟨by decide, by decide, by decide, by norm_num, by norm_num, by decide⟩

/-- C9, as amended: when the policy read succeeds and none of the reports
fetched is accepted by the freshness predicate as `SyncPolicy` computes it,
`SyncPolicy` submits, right after the read and the fetch, one job request with
the policy name as identity and no action, the request that
`RunActionForPolicy` builds for an empty action; when the submission succeeds
it returns what the poller returns for its probe, started in the world whose
trace is the read, the fetch and that one request; with a poller that makes any
number of attempts the whole run contains exactly one job request. The same
holds when every report fetched has an end time of at most `2 ^ 62` seconds in
magnitude that lies less than `2 ^ 24` seconds before or after the clock
reading and is not a finished sync report whose end time lies less than half
the `JobDelay` before the clock reading. Each attempt of the probe fetches the
last 5 reports of the same policy again and nothing else, and reports the
condition met exactly when the fetch succeeds and one of the reports is
accepted by the freshness predicate at the clock reading after the fetch; for
reports with end times in the range just named: exactly when one of them is a
finished sync report whose end time lies less than half the `JobDelay` before
that clock reading. -/
theorem SyncPolicy_stale_dispatch (api : API σ) (poll : Poller σ) (name : String)
    (w : World σ) (p : Policy) (reports : Reports)
    (h : (GetPolicyByName api name w).1 = (some p, none))
    (hf : (GetReportsByPolicyName api name 5 (afterPolicyRead api name w)).1
      = (some reports, none)) :
    (afterSyncDispatch api name w).trace
      = w.trace ++ [Call.GetPolicyByName name, Call.GetReportsByPolicyName name 5,
          Call.StartSyncIQJob { Id := name, Action := "" }] ∧
    (∀ w1 : World σ,
      RunActionForPolicy api name "" w1 = StartSyncIQJob api { Id := name } w1) ∧
    ((∀ r ∈ reports.Reports,
        reportFilter p.JobDelay (api.Now (afterFetch api name w).remote) r = false) →
      (∀ v, (StartSyncIQJob api { Id := name } (afterFetch api name w)).1 = (v, none) →
        SyncPolicy api poll name w
          = poll defaultPoll defaultTimeout (syncProbe api name p.JobDelay)
              (afterSyncDispatch api name w)) ∧
      (∀ n, jobCalls (SyncPolicy api (fun _ _ probe => pollLoop probe n) name w).2.trace
          = jobCalls w.trace + 1)) ∧
    ((∀ r ∈ reports.Reports,
        |r.EndTime| ≤ 4611686018427387904 ∧
        |api.Now (afterFetch api name w).remote - r.EndTime * 1000000000|
          < 16777216 * 1000000000 ∧
        ¬ (r.Policy.Action = "sync" ∧ r.State = "finished" ∧
          ((api.Now (afterFetch api name w).remote : Int) : ℚ) / 1000000000 - (r.EndTime : ℚ)
            < (p.JobDelay : ℚ) / 2)) →
      (∀ v, (StartSyncIQJob api { Id := name } (afterFetch api name w)).1 = (v, none) →
        SyncPolicy api poll name w
          = poll defaultPoll defaultTimeout (syncProbe api name p.JobDelay)
              (afterSyncDispatch api name w)) ∧
      (∀ n, jobCalls (SyncPolicy api (fun _ _ probe => pollLoop probe n) name w).2.trace
          = jobCalls w.trace + 1)) ∧
    (∀ w1 : World σ,
      (syncProbe api name p.JobDelay w1).2.trace
        = w1.trace ++ [Call.GetReportsByPolicyName name 5] ∧
      ((syncProbe api name p.JobDelay w1).1 = ProbeResult.ret true none ↔
        ∃ reports1, (GetReportsByPolicyName api name 5 w1).1 = (some reports1, none) ∧
          ∃ r ∈ reports1.Reports,
            reportFilter p.JobDelay
              (api.Now (GetReportsByPolicyName api name 5 w1).2.remote) r = true) ∧
      (∀ reports1, (GetReportsByPolicyName api name 5 w1).1 = (some reports1, none) →
        (∀ r ∈ reports1.Reports,
          |r.EndTime| ≤ 4611686018427387904 ∧
          |api.Now (GetReportsByPolicyName api name 5 w1).2.remote - r.EndTime * 1000000000|
            < 16777216 * 1000000000) →
        ((syncProbe api name p.JobDelay w1).1 = ProbeResult.ret true none ↔
          ∃ r ∈ reports1.Reports,
            r.Policy.Action = "sync" ∧ r.State = "finished" ∧
              ((api.Now (GetReportsByPolicyName api name 5 w1).2.remote : Int) : ℚ) / 1000000000
                - (r.EndTime : ℚ) < (p.JobDelay : ℚ) / 2)) ∧
      (∀ v e, (GetReportsByPolicyName api name 5 w1).1 = (v, some e) →
        (syncProbe api name p.JobDelay w1).1 = ProbeResult.ret false (some e))) := by
  have htr := afterSyncDispatch_trace api name w
  have main : (∀ r ∈ reports.Reports,
        reportFilter p.JobDelay (api.Now (afterFetch api name w).remote) r = false) →
      (∀ v, (StartSyncIQJob api { Id := name } (afterFetch api name w)).1 = (v, none) →
        SyncPolicy api poll name w
          = poll defaultPoll defaultTimeout (syncProbe api name p.JobDelay)
              (afterSyncDispatch api name w)) ∧
      (∀ n, jobCalls (SyncPolicy api (fun _ _ probe => pollLoop probe n) name w).2.trace
          = jobCalls w.trace + 1) := by
    intro hst
    constructor
    · intro v hd
      exact SyncPolicy_of_stale_dispatched api poll name w p h reports hf hst v hd
    · intro n
      have hj : jobCalls (afterSyncDispatch api name w).trace = jobCalls w.trace + 1 := by
        rw [htr, jobCalls_append]
        simp [jobCalls]
      rcases hd : (StartSyncIQJob api { Id := name } (afterFetch api name w)).1 with ⟨v, e⟩
      cases e with
      | some e =>
        rw [SyncPolicy_of_stale_error api _ name w p h reports hf hst v e hd]
        exact hj
      | none =>
        rw [SyncPolicy_of_stale_dispatched api _ name w p h reports hf hst v hd]
        rw [pollLoop_jobCalls _ (syncProbe_jobCalls api name p.JobDelay)]
        exact hj
  have hmet : ∀ w1 : World σ,
      ((syncProbe api name p.JobDelay w1).1 = ProbeResult.ret true none ↔
        ∃ reports1, (GetReportsByPolicyName api name 5 w1).1 = (some reports1, none) ∧
          ∃ r ∈ reports1.Reports,
            reportFilter p.JobDelay
              (api.Now (GetReportsByPolicyName api name 5 w1).2.remote) r = true) := by
    intro w1
    rcases hr : (GetReportsByPolicyName api name 5 w1).1 with ⟨v1, e1⟩
    cases e1 with
    | some e =>
      rw [syncProbe_of_error api name p.JobDelay w1 v1 e hr]
      simp
    | none =>
      cases v1 with
      | none =>
        rw [syncProbe_of_nil api name p.JobDelay w1 hr]
        simp
      | some reports1 =>
        rw [syncProbe_of_some api name p.JobDelay w1 reports1 hr]
        simp only [ProbeResult.ret.injEq, and_true, List.any_eq_true, Prod.mk.injEq,
          Option.some.injEq, exists_eq_left']
  refine ⟨htr, fun _ => rfl, main, ?_, ?_⟩
  · intro hst
    apply main
    intro r hr
    obtain ⟨hE, hD, hc⟩ := hst r hr
    rw [← Bool.not_eq_true, reportFilter_near_iff _ _ r hE hD]
    exact hc
  · intro w1
    refine ⟨syncProbe_trace api name p.JobDelay w1, hmet w1, ?_, ?_⟩
    · intro reports1 h1 hrange
      rw [hmet w1]
      constructor
      · rintro ⟨reports2, h2, r, hr, hacc⟩
        rw [h1] at h2
        simp only [Prod.mk.injEq, Option.some.injEq, and_true] at h2
        subst h2
        obtain ⟨hE, hD⟩ := hrange r hr
        exact ⟨r, hr, (reportFilter_near_iff _ _ r hE hD).1 hacc⟩
      · rintro ⟨r, hr, hc⟩
        obtain ⟨hE, hD⟩ := hrange r hr
        exact ⟨reports1, h1, r, hr, (reportFilter_near_iff _ _ r hE hD).2 hc⟩
    · intro v e h1
      exact syncProbe_of_error api name p.JobDelay w1 v e h1

/-- C9, the claim as stated fails: the only report fetched ended 11700000000
seconds before now, which is not within the half interval of 10000000000
seconds, yet `SyncPolicy` submits no job: `Time.Sub` saturates at the largest
`Duration`, about 9223372036.85 seconds, which is below the half. -/
theorem SyncPolicy_saturation_noop :
    (GetPolicyByName (storeAPI none) "p" { remote := saturatingStore, trace := [] }).1
      = (some { Id := "p", Name := "p", JobDelay := 20000000000 }, none) ∧
    (GetReportsByPolicyName (storeAPI none) "p" 5
        (afterPolicyRead (storeAPI none) "p" { remote := saturatingStore, trace := [] })).1
      = (some { Reports :=
          [{ Policy := { Action := "sync", Id := "p" }, EndTime := -10000000000,
             State := "finished" }] }, none) ∧
    (storeAPI none).Now
      (afterFetch (storeAPI none) "p" { remote := saturatingStore, trace := [] }).remote
      = 1700000000000000000 ∧
    ¬ (((1700000000000000000 : Int) : ℚ) / 1000000000 - ((-10000000000 : Int) : ℚ)
      < ((20000000000 : Int) : ℚ) / 2) ∧
    SyncPolicy (storeAPI none) PollImmediateWithContext "p"
        { remote := saturatingStore, trace := [] }
      = (Outcome.ret none,
          { remote := saturatingStore
            trace := [Call.GetPolicyByName "p", Call.GetReportsByPolicyName "p" 5] }) := by
  refine ⟨by decide, by decide, by decide, by norm_num, by decide⟩

/-- C10: an error of the initial read, of the report fetch or of the job
dispatch is returned as it is, and the world in which the operation ends is
the world right after the failing call, whatever the poller is: a failed read
is followed by no update, dispatch, fetch or delete, a failed fetch by no
dispatch, and a failed dispatch by no poll. This holds for
`SetPolicyEnabledField`, `AllowWrites`, `DisallowWrites`, `ResyncPrep`,
`SyncPolicy` and `BreakAssociation`. -/
theorem errors_propagate (api : API σ) (poll : Poller σ) (name : String) (w : World σ)
    (e : Err) :
    (afterPolicyRead api name w).trace = w.trace ++ [Call.GetPolicyByName name] ∧
    (afterTargetRead api name w).trace = w.trace ++ [Call.GetTargetPolicyByName name] ∧
    (afterFetch api name w).trace
      = w.trace ++ [Call.GetPolicyByName name, Call.GetReportsByPolicyName name 5] ∧
    (afterSyncDispatch api name w).trace
      = w.trace ++ [Call.GetPolicyByName name, Call.GetReportsByPolicyName name 5,
          Call.StartSyncIQJob { Id := name, Action := "" }] ∧
    (∀ action, (afterDispatch api name action w).trace
      = w.trace ++ [Call.GetTargetPolicyByName name,
          Call.StartSyncIQJob { Id := name, Action := action }]) ∧
    (∀ v, (GetPolicyByName api name w).1 = (v, some e) →
      (∀ value, SetPolicyEnabledField api name value w
        = (Outcome.ret (some e), afterPolicyRead api name w)) ∧
      SyncPolicy api poll name w = (Outcome.ret (some e), afterPolicyRead api name w)) ∧
    (∀ v, (GetTargetPolicyByName api name w).1 = (v, some e) →
      AllowWrites api poll name w = (Outcome.ret (some e), afterTargetRead api name w) ∧
      DisallowWrites api poll name w = (Outcome.ret (some e), afterTargetRead api name w) ∧
      ResyncPrep api poll name w = (Outcome.ret (some e), afterTargetRead api name w) ∧
      BreakAssociation api name w = (Outcome.ret (some e), afterTargetRead api name w)) ∧
    (∀ tp v, (GetTargetPolicyByName api name w).1 = (some tp, none) →
      (tp.FailoverFailbackState ≠ "writes_enabled" →
        (RunActionForPolicy api name "allow_write" (afterTargetRead api name w)).1
          = (v, some e) →
        AllowWrites api poll name w
          = (Outcome.ret (some e), afterDispatch api name "allow_write" w)) ∧
      (tp.FailoverFailbackState ≠ "writes_disabled" →
        (RunActionForPolicy api name "allow_write_revert" (afterTargetRead api name w)).1
          = (v, some e) →
        DisallowWrites api poll name w
          = (Outcome.ret (some e), afterDispatch api name "allow_write_revert" w)) ∧
      (tp.FailoverFailbackState ≠ "resync_policy_created" →
        (RunActionForPolicy api name "resync_prep" (afterTargetRead api name w)).1
          = (v, some e) →
        ResyncPrep api poll name w
          = (Outcome.ret (some e), afterDispatch api name "resync_prep" w))) ∧
    (∀ p v, (GetPolicyByName api name w).1 = (some p, none) →
      (GetReportsByPolicyName api name 5 (afterPolicyRead api name w)).1 = (v, some e) →
      SyncPolicy api poll name w = (Outcome.ret (some e), afterFetch api name w)) ∧
    (∀ p reports v, (GetPolicyByName api name w).1 = (some p, none) →
      (GetReportsByPolicyName api name 5 (afterPolicyRead api name w)).1
        = (some reports, none) →
      (∀ r ∈ reports.Reports,
        reportFilter p.JobDelay (api.Now (afterFetch api name w).remote) r = false) →
      (StartSyncIQJob api { Id := name } (afterFetch api name w)).1 = (v, some e) →
      SyncPolicy api poll name w = (Outcome.ret (some e), afterSyncDispatch api name w)) := by
  refine ⟨rfl, rfl, afterFetch_trace api name w, afterSyncDispatch_trace api name w,
    fun action => afterDispatch_trace api name action w, ?_, ?_, ?_, ?_, ?_⟩
  · intro v h
    refine ⟨fun value => ?_, SyncPolicy_of_read_error api poll name w v e h⟩
    exact SetPolicyEnabledField_of_error api name value w v e h
  · intro v h
    refine ⟨?_, ?_, ?_, ?_⟩
    · rw [AllowWrites_eq]
      exact reconcileTarget_of_error api poll name _ _ w v e h
    · rw [DisallowWrites_eq]
      exact reconcileTarget_of_error api poll name _ _ w v e h
    · rw [ResyncPrep_eq]
      exact reconcileTarget_of_error api poll name _ _ w v e h
    · unfold BreakAssociation afterTargetRead
      change (GetTargetPolicyByName api name w).1 = (v, some e) at h
      change (match GetTargetPolicyByName api name w with
        | ((_, some err), w1) => (Outcome.ret (some err), w1)
        | ((none, none), w1) => (Outcome.panic, w1)
        | ((some tp, none), w1) => DeleteTargetPolicy api tp.Id w1) = _
      rcases hr : GetTargetPolicyByName api name w with ⟨⟨v1, e1⟩, w1⟩
      rw [hr] at h
      simp only [Prod.mk.injEq] at h
      obtain ⟨-, rfl⟩ := h
      cases v1 <;> rfl
  · intro tp v h
    refine ⟨?_, ?_, ?_⟩
    · intro ht hd
      rw [AllowWrites_eq]
      exact reconcileTarget_of_dispatch_error api poll name _ _ w tp h ht v e hd
    · intro ht hd
      rw [DisallowWrites_eq]
      exact reconcileTarget_of_dispatch_error api poll name _ _ w tp h ht v e hd
    · intro ht hd
      rw [ResyncPrep_eq]
      exact reconcileTarget_of_dispatch_error api poll name _ _ w tp h ht v e hd
  · intro p v h hf
    exact SyncPolicy_of_fetch_error api poll name w p h v e hf
  · intro p reports v h hf hstale hd
    exact SyncPolicy_of_stale_error api poll name w p h reports hf hstale v e hd

end Sync

/-! ## The operations on a concrete remote array -/

theorem targetOps_already_reached_witness :
    (GetTargetPolicyByName (storeAPI none) "p"
        { remote := reachedStore "writes_enabled", trace := [] }).1
      = (some { Id := "p", FailoverFailbackState := "writes_enabled" }, none) ∧
    AllowWrites (storeAPI none) PollImmediateWithContext "p"
        { remote := reachedStore "writes_enabled", trace := [] }
      = (Outcome.ret none,
          { remote := reachedStore "writes_enabled"
            trace := [Call.GetTargetPolicyByName "p"] }) ∧
    DisallowWrites (storeAPI none) PollImmediateWithContext "p"
        { remote := reachedStore "writes_disabled", trace := [] }
      = (Outcome.ret none,
          { remote := reachedStore "writes_disabled"
            trace := [Call.GetTargetPolicyByName "p"] }) ∧
    ResyncPrep (storeAPI none) PollImmediateWithContext "p"
        { remote := reachedStore "resync_policy_created", trace := [] }
      = (Outcome.ret none,
          { remote := reachedStore "resync_policy_created"
            trace := [Call.GetTargetPolicyByName "p"] }) :=
  ⟨by decide,
    (targetOps_already_reached (storeAPI none) PollImmediateWithContext "p"
      { remote := reachedStore "writes_enabled", trace := [] }
      { Id := "p", FailoverFailbackState := "writes_enabled" } (by decide)).2.1 (by decide),
    (targetOps_already_reached (storeAPI none) PollImmediateWithContext "p"
      { remote := reachedStore "writes_disabled", trace := [] }
      { Id := "p", FailoverFailbackState := "writes_disabled" } (by decide)).2.2.1 (by decide),
    (targetOps_already_reached (storeAPI none) PollImmediateWithContext "p"
      { remote := reachedStore "resync_policy_created", trace := [] }
      { Id := "p", FailoverFailbackState := "resync_policy_created" } (by decide)).2.2.2
      (by decide)⟩

theorem targetOps_dispatch_witness :
    (GetTargetPolicyByName (storeAPI none) "p" { remote := demoStore, trace := [] }).1
      = (some { Id := "p", FailoverFailbackState := "enabling_writes" }, none) ∧
    AllowWrites (storeAPI none) PollImmediateWithContext "p" { remote := demoStore, trace := [] }
      = PollImmediateWithContext defaultPoll defaultTimeout
          (targetPolicyProbe (storeAPI none) "p" "writes_enabled")
          (afterDispatch (storeAPI none) "p" "allow_write" { remote := demoStore, trace := [] }) ∧
    DisallowWrites (storeAPI none) PollImmediateWithContext "p"
        { remote := demoStore, trace := [] }
      = PollImmediateWithContext defaultPoll defaultTimeout
          (targetPolicyProbe (storeAPI none) "p" "writes_disabled")
          (afterDispatch (storeAPI none) "p" "allow_write_revert"
            { remote := demoStore, trace := [] }) ∧
    ResyncPrep (storeAPI none) PollImmediateWithContext "p" { remote := demoStore, trace := [] }
      = PollImmediateWithContext defaultPoll defaultTimeout
          (targetPolicyProbe (storeAPI none) "p" "resync_policy_created")
          (afterDispatch (storeAPI none) "p" "resync_prep" { remote := demoStore, trace := [] }) ∧
    (targetPolicyProbe (storeAPI none) "p" "writes_enabled"
        { remote := demoStore, trace := [] }).1 = ProbeResult.ret false none ∧
    (targetPolicyProbe (storeAPI none) "p" "writes_enabled"
        { remote := { demoStore with targetErr := some Err.cancelled }, trace := [] }).1
      = ProbeResult.ret false (some Err.cancelled) :=
  ⟨by decide,
    ((targetOps_dispatch (storeAPI none) PollImmediateWithContext "p"
      { remote := demoStore, trace := [] }
      { Id := "p", FailoverFailbackState := "enabling_writes" } (by decide)).1
      (by decide)).2.1 (some { Id := "p", Action := "allow_write" }) (by decide),
    ((targetOps_dispatch (storeAPI none) PollImmediateWithContext "p"
      { remote := demoStore, trace := [] }
      { Id := "p", FailoverFailbackState := "enabling_writes" } (by decide)).2.1
      (by decide)).2.1 (some { Id := "p", Action := "allow_write_revert" }) (by decide),
    ((targetOps_dispatch (storeAPI none) PollImmediateWithContext "p"
      { remote := demoStore, trace := [] }
      { Id := "p", FailoverFailbackState := "enabling_writes" } (by decide)).2.2.1
      (by decide)).2.1 (some { Id := "p", Action := "resync_prep" }) (by decide),
    ((targetOps_dispatch (storeAPI none) PollImmediateWithContext "p"
      { remote := demoStore, trace := [] }
      { Id := "p", FailoverFailbackState := "enabling_writes" } (by decide)).2.2.2.2
      "writes_enabled" { remote := demoStore, trace := [] }).2.2.1
      { Id := "p", FailoverFailbackState := "enabling_writes" } (by decide) (by decide),
    ((targetOps_dispatch (storeAPI none) PollImmediateWithContext "p"
      { remote := demoStore, trace := [] }
      { Id := "p", FailoverFailbackState := "enabling_writes" } (by decide)).2.2.2.2
      "writes_enabled"
      { remote := { demoStore with targetErr := some Err.cancelled }, trace := [] }).2.2.2
      none Err.cancelled (by decide)⟩

theorem SyncPolicy_fresh_noop_witness :
    (GetPolicyByName (storeAPI none) "p" { remote := demoStore, trace := [] }).1
      = (some { Id := "p", Name := "p", JobDelay := 40 }, none) ∧
    SyncPolicy (storeAPI none) PollImmediateWithContext "p" { remote := demoStore, trace := [] }
      = (Outcome.ret none,
          { remote := demoStore
            trace := [Call.GetPolicyByName "p", Call.GetReportsByPolicyName "p" 5] }) ∧
    jobCalls (SyncPolicy (storeAPI none) PollImmediateWithContext "p"
      { remote := demoStore, trace := [] }).2.trace = 0 :=
  ⟨by decide,
    ((SyncPolicy_fresh_noop (storeAPI none) PollImmediateWithContext "p"
      { remote := demoStore, trace := [] } { Id := "p", Name := "p", JobDelay := 40 }
      { Reports := [{ Policy := { Action := "sync", Id := "p" }, EndTime := 990
                      State := "finished" }] }
      (by decide) (by decide)).2.1
      ⟨{ Policy := { Action := "sync", Id := "p" }, EndTime := 990, State := "finished" },
        by simp, by decide⟩).1,
    ((SyncPolicy_fresh_noop (storeAPI none) PollImmediateWithContext "p"
      { remote := demoStore, trace := [] } { Id := "p", Name := "p", JobDelay := 40 }
      { Reports := [{ Policy := { Action := "sync", Id := "p" }, EndTime := 990
                      State := "finished" }] }
      (by decide) (by decide)).2.2
      ⟨{ Policy := { Action := "sync", Id := "p" }, EndTime := 990, State := "finished" },
        by simp, by decide, by decide, rfl, rfl, by
          show ((1000000000000 : Int) : ℚ) / 1000000000 - ((990 : Int) : ℚ)
            < ((40 : Int) : ℚ) / 2
          norm_num⟩).2⟩

theorem SyncPolicy_stale_dispatch_witness :
    (GetPolicyByName (storeAPI none) "p" { remote := staleStore, trace := [] }).1
      = (some { Id := "p", Name := "p", JobDelay := 40 }, none) ∧
    SyncPolicy (storeAPI none) PollImmediateWithContext "p" { remote := staleStore, trace := [] }
      = PollImmediateWithContext defaultPoll defaultTimeout (syncProbe (storeAPI none) "p" 40)
          (afterSyncDispatch (storeAPI none) "p" { remote := staleStore, trace := [] }) ∧
    (∀ n, jobCalls (SyncPolicy (storeAPI none) (fun _ _ probe => pollLoop probe n) "p"
      { remote := staleStore, trace := [] }).2.trace = 0 + 1) ∧
    (syncProbe (storeAPI none) "p" 40
        { remote := { staleStore with reportErr := some Err.cancelled }, trace := [] }).1
      = ProbeResult.ret false (some Err.cancelled) :=
  ⟨by decide,
    ((SyncPolicy_stale_dispatch (storeAPI none) PollImmediateWithContext "p"
      { remote := staleStore, trace := [] } { Id := "p", Name := "p", JobDelay := 40 }
      { Reports := [{ Policy := { Action := "sync", Id := "p" }, EndTime := 0
                      State := "finished" }] }
      (by decide) (by decide)).2.2.1 (by decide)).1 (some { Id := "p" }) (by decide),
    ((SyncPolicy_stale_dispatch (storeAPI none) PollImmediateWithContext "p"
      { remote := staleStore, trace := [] } { Id := "p", Name := "p", JobDelay := 40 }
      { Reports := [{ Policy := { Action := "sync", Id := "p" }, EndTime := 0
                      State := "finished" }] }
      (by decide) (by decide)).2.2.2.1
      (by
        intro r hr
        rw [List.mem_singleton] at hr
        subst hr
        refine ⟨by decide, by decide, ?_⟩
        rintro ⟨-, -, hlt⟩
        change ((1000000000000 : Int) : ℚ) / 1000000000 - ((0 : Int) : ℚ)
          < ((40 : Int) : ℚ) / 2 at hlt
        norm_num at hlt)).2,
    ((SyncPolicy_stale_dispatch (storeAPI none) PollImmediateWithContext "p"
      { remote := staleStore, trace := [] } { Id := "p", Name := "p", JobDelay := 40 }
      { Reports := [{ Policy := { Action := "sync", Id := "p" }, EndTime := 0
                      State := "finished" }] }
      (by decide) (by decide)).2.2.2.2
      { remote := { staleStore with reportErr := some Err.cancelled }, trace := [] }).2.2.2
      none Err.cancelled (by decide)⟩

theorem errors_propagate_witness :
    SetPolicyEnabledField (storeAPI (some (Err.remote "down"))) "p" true
        { remote := demoStore, trace := [] }
      = (Outcome.ret (some (Err.remote "down")),
          { remote := demoStore, trace := [Call.GetPolicyByName "p"] }) ∧
    SyncPolicy (storeAPI (some (Err.remote "down"))) PollImmediateWithContext "p"
        { remote := demoStore, trace := [] }
      = (Outcome.ret (some (Err.remote "down")),
          { remote := demoStore, trace := [Call.GetPolicyByName "p"] }) ∧
    BreakAssociation (storeAPI none) "p"
        { remote := { demoStore with targetErr := some (Err.remote "down") }, trace := [] }
      = (Outcome.ret (some (Err.remote "down")),
          { remote := { demoStore with targetErr := some (Err.remote "down") }
            trace := [Call.GetTargetPolicyByName "p"] }) ∧
    AllowWrites (storeAPI none) PollImmediateWithContext "p"
        { remote := { demoStore with jobErr := some (Err.remote "down") }, trace := [] }
      = (Outcome.ret (some (Err.remote "down")),
          { remote := { demoStore with jobErr := some (Err.remote "down") }
            trace := [Call.GetTargetPolicyByName "p",
              Call.StartSyncIQJob { Id := "p", Action := "allow_write" }] }) ∧
    DisallowWrites (storeAPI none) PollImmediateWithContext "p"
        { remote := { demoStore with jobErr := some (Err.remote "down") }, trace := [] }
      = (Outcome.ret (some (Err.remote "down")),
          { remote := { demoStore with jobErr := some (Err.remote "down") }
            trace := [Call.GetTargetPolicyByName "p",
              Call.StartSyncIQJob { Id := "p", Action := "allow_write_revert" }] }) ∧
    ResyncPrep (storeAPI none) PollImmediateWithContext "p"
        { remote := { demoStore with jobErr := some (Err.remote "down") }, trace := [] }
      = (Outcome.ret (some (Err.remote "down")),
          { remote := { demoStore with jobErr := some (Err.remote "down") }
            trace := [Call.GetTargetPolicyByName "p",
              Call.StartSyncIQJob { Id := "p", Action := "resync_prep" }] }) ∧
    SyncPolicy (storeAPI none) PollImmediateWithContext "p"
        { remote := { demoStore with reportErr := some (Err.remote "down") }, trace := [] }
      = (Outcome.ret (some (Err.remote "down")),
          { remote := { demoStore with reportErr := some (Err.remote "down") }
            trace := [Call.GetPolicyByName "p", Call.GetReportsByPolicyName "p" 5] }) ∧
    SyncPolicy (storeAPI none) PollImmediateWithContext "p"
        { remote := { staleStore with jobErr := some (Err.remote "down") }, trace := [] }
      = (Outcome.ret (some (Err.remote "down")),
          { remote := { staleStore with jobErr := some (Err.remote "down") }
            trace := [Call.GetPolicyByName "p", Call.GetReportsByPolicyName "p" 5,
              Call.StartSyncIQJob { Id := "p", Action := "" }] }) :=
  ⟨((errors_propagate (storeAPI (some (Err.remote "down"))) PollImmediateWithContext "p"
      { remote := demoStore, trace := [] } (Err.remote "down")).2.2.2.2.2.1
      none (by decide)).1 true,
    ((errors_propagate (storeAPI (some (Err.remote "down"))) PollImmediateWithContext "p"
      { remote := demoStore, trace := [] } (Err.remote "down")).2.2.2.2.2.1
      none (by decide)).2,
    ((errors_propagate (storeAPI none) PollImmediateWithContext "p"
      { remote := { demoStore with targetErr := some (Err.remote "down") }, trace := [] }
      (Err.remote "down")).2.2.2.2.2.2.1 none (by decide)).2.2.2,
    ((errors_propagate (storeAPI none) PollImmediateWithContext "p"
      { remote := { demoStore with jobErr := some (Err.remote "down") }, trace := [] }
      (Err.remote "down")).2.2.2.2.2.2.2.1
      { Id := "p", FailoverFailbackState := "enabling_writes" } none (by decide)).1
      (by decide) (by decide),
    ((errors_propagate (storeAPI none) PollImmediateWithContext "p"
      { remote := { demoStore with jobErr := some (Err.remote "down") }, trace := [] }
      (Err.remote "down")).2.2.2.2.2.2.2.1
      { Id := "p", FailoverFailbackState := "enabling_writes" } none (by decide)).2.1
      (by decide) (by decide),
    ((errors_propagate (storeAPI none) PollImmediateWithContext "p"
      { remote := { demoStore with jobErr := some (Err.remote "down") }, trace := [] }
      (Err.remote "down")).2.2.2.2.2.2.2.1
      { Id := "p", FailoverFailbackState := "enabling_writes" } none (by decide)).2.2
      (by decide) (by decide),
    (errors_propagate (storeAPI none) PollImmediateWithContext "p"
      { remote := { demoStore with reportErr := some (Err.remote "down") }, trace := [] }
      (Err.remote "down")).2.2.2.2.2.2.2.2.1
      { Id := "p", Name := "p", JobDelay := 40 } none (by decide) (by decide),
    (errors_propagate (storeAPI none) PollImmediateWithContext "p"
      { remote := { staleStore with jobErr := some (Err.remote "down") }, trace := [] }
      (Err.remote "down")).2.2.2.2.2.2.2.2.2
      { Id := "p", Name := "p", JobDelay := 40 }
      { Reports := [{ Policy := { Action := "sync", Id := "p" }, EndTime := 0
                      State := "finished" }] }
      none (by decide) (by decide)
      (by decide)
      (by decide)⟩

end Replication
